import Mathlib

/-!
Verification development for the Borsht card-game session engine
(`app/games/borsht/game_manager.py` and `app/games/abstract_game.py`).

The Python engine is shallowly embedded: dict-valued cards become a `Card`
structure, the manager's mutable attributes become fields of `GState`,
and every handler becomes a Lean function that threads the state
explicitly.  Randomness (`random.sample`, `random.randint`,
`random.shuffle`) is abstracted into an `Env` of choice functions, and
the player-request protocol (`_request_to_player`) is abstracted into a
queue of `PlayerResponse`s that is consumed one response per request; an
empty queue behaves as a timeout, matching `asyncio.wait_for` expiring.
-/

/-- A card dict from `game_cards.py`: `uid` (globally unique instance id),
`id` (card kind id), `type` (`regular`/`rare`/`extra`/`special`/`shkvarka`),
`cost`, `points`, `effect` (for special cards), `subtype` (for shkvarkas)
and the `face_down` flag consulted by shkvarka handlers. -/
structure Card where
  uid : Nat
  id : String
  type : String
  cost : Int
  points : Int
  effect : String := ""
  subtype : String := ""
  face_down : Bool := false
deriving DecidableEq

instance : Inhabited Card :=
  ⟨{ uid := 0, id := "", type := "", cost := 0, points := 0 }⟩

/-- A recipe dict: ingredient id list plus the completion-level bonus
table (`levels`, iterated in ascending key order by the source). -/
structure Recipe where
  rid : String
  ingredients : List String
  levels : List (Nat × Int)
deriving DecidableEq

instance : Inhabited Recipe := ⟨{ rid := "", ingredients := [], levels := [] }⟩

/-- The `GameState` string constants of the turn state machine. -/
inductive GameState where
  | normal_turn
  | waiting_for_defense
  | waiting_for_selection
  | waiting_for_discard
  | waiting_for_exchange
  | game_over
deriving DecidableEq

/-- The mutable fields of `GameSettings` that the embedded handlers read
or write (`market_base_capacity` is overwritten with `market_capacity`
by `GameSettings.__init__`, which matters for `load`). -/
structure Settings where
  cards_to_draw : Int := 2
  market_capacity : Int := 8
  market_base_capacity : Int := 8
  player_hand_limit : Option Int := some 8
  player_start_hand_size : Int := 5
  market_exchange_tax : Int := 0
  extra_cards_allowed : Bool := true
  olive_oil_look_count : Int := 5
  olive_oil_select_count : Int := 2
  cinnamon_select_count : Int := 1
  ginger_select_count : Int := 2
  chili_pepper_discard_count : Int := 1
  smetana_count_for_defence : Int := 1
deriving DecidableEq

/-- The session state: the `BorshtManager` attributes (plus the
`AbstractGameManager` base attributes) that the game logic mutates.
Player-keyed dicts become association lists in roster order.
`game_messages` keeps the `type` tag of every broadcast game message. -/
structure GState where
  players : List Nat
  current_player_index : Nat
  is_game_over : Bool
  winner : Option Nat
  turn_state : GameState
  deck : List Card
  market : List Card
  discard_pile : List Card
  pending_shkvarkas : List Card
  recipes_revealed : Bool
  game_ending : Bool
  first_finisher : Option Nat
  active_shkvarkas : List Card
  recipes : List Recipe
  player_hands : List (Nat × List Card)
  player_borsht : List (Nat × List Card)
  player_recipes : List (Nat × Recipe)
  moves_count : List (Nat × Nat)
  game_messages : List String
  settings : Settings
deriving DecidableEq

/-- A response delivered for one `_request_to_player` call: a timeout, a
defense decision (`use_defense`) or a card selection
(`random_select` flag plus the `selected_cards` uid list). -/
inductive PlayerResponse where
  | timeout
  | defense (use : Bool)
  | select (random_select : Bool) (uids : List Nat)
deriving DecidableEq

/-- The sources of randomness of the engine: `random.sample(range n, k)`
as `sample n k`, `random.randint(0, n-1)` as `randint n`, and
`random.shuffle` as `shuffle`. -/
structure Env where
  sample : Nat → Nat → List Nat
  randint : Nat → Nat
  shuffle : List Card → List Card

/-- Read a player-keyed dict entry (a `KeyError` cannot occur for the
states the theorems quantify over; the default mirrors reading an
always-present key). -/
def lookupD {α : Type} [Inhabited α] (m : List (Nat × α)) (k : Nat) : α :=
  match m.find? (fun p => p.1 = k) with
  | some p => p.2
  | none => default

/-- Write a player-keyed dict entry in place (Python dict assignment to
an existing key keeps insertion order). -/
def setKey {α : Type} (m : List (Nat × α)) (k : Nat) (v : α) : List (Nat × α) :=
  m.map (fun p => if p.1 = k then (k, v) else p)

def hand_of (s : GState) (pid : Nat) : List Card := lookupD s.player_hands pid

def borsht_of (s : GState) (pid : Nat) : List Card := lookupD s.player_borsht pid

def recipe_of (s : GState) (pid : Nat) : Recipe := lookupD s.player_recipes pid

def moves_of (s : GState) (pid : Nat) : Nat := lookupD s.moves_count pid

def set_hand (s : GState) (pid : Nat) (h : List Card) : GState :=
  { s with player_hands := setKey s.player_hands pid h }

def set_borsht (s : GState) (pid : Nat) (b : List Card) : GState :=
  { s with player_borsht := setKey s.player_borsht pid b }

/-- `AbstractGameManager.current_player_id`:
`list(self.players.keys())[self.current_player_index]`. -/
def current_player_id (s : GState) : Nat :=
  (s.players.get? s.current_player_index).getD 0

/-- `AbstractGameManager.next_player`. -/
def next_player (s : GState) : GState :=
  { s with current_player_index := (s.current_player_index + 1) % s.players.length }

def push_msg (s : GState) (m : String) : GState :=
  { s with game_messages := s.game_messages ++ [m] }

/-- The first-match scan `for i, card in enumerate(lst): if card['uid'] == uid`
used throughout the manager: index and card of the first uid match. -/
def find_card : List Card → Nat → Option (Nat × Card)
  | [], _ => none
  | c :: cs, u =>
    if c.uid = u then some (0, c)
    else (find_card cs u).map (fun p => (p.1 + 1, p.2))

/-- Pop a list of indices in the given order, collecting the popped
cards (the pattern `for idx in indices: discarded.append(lst[idx]); lst.pop(idx)`).
An out-of-range index is skipped; the source only reaches that case
through inputs that would raise `IndexError`, which no theorem below
exercises. -/
def pop_indices : List Card → List Nat → List Card × List Card
  | cards, [] => (cards, [])
  | cards, i :: rest =>
    match cards[i]? with
    | none => pop_indices cards rest
    | some c =>
      let r := pop_indices (cards.eraseIdx i) rest
      (r.1, c :: r.2)

/-- Pop a list of indices in the given order, dropping the popped cards
(the exchange handler's removal loops). -/
def remove_indices : List Card → List Nat → List Card
  | cards, [] => cards
  | cards, i :: rest => remove_indices (cards.eraseIdx i) rest

/-- The selected-cards processing loop of `_cards_selection_request`:
remove each uid's first match in turn, failing (`none`) as soon as a
uid is not found. -/
def take_by_uids : List Card → List Nat → Option (List Card × List Card)
  | cards, [] => some (cards, [])
  | cards, u :: rest =>
    match find_card cards u with
    | none => none
    | some (i, c) =>
      match take_by_uids (cards.eraseIdx i) rest with
      | none => none
      | some (upd, disc) => some (upd, c :: disc)

/-- The index-collection loop of `_handle_exchange`: for each uid record
the (index, card) of its first match in the unmodified container,
failing as soon as a uid is not found. -/
def collect_cards (cards : List Card) : List Nat → Option (List (Nat × Card))
  | [] => some []
  | u :: rest =>
    match find_card cards u with
    | none => none
    | some ic => (collect_cards cards rest).map (ic :: ·)

/-- Sort a list of indices descending (`lst.sort(reverse=True)` /
`sorted(objs, key=lambda x: x[0], reverse=True)`). -/
def sort_desc (l : List Nat) : List Nat :=
  List.insertionSort (fun a b => b ≤ a) l

/-- The `while len(cards) < count` body of `_get_cards_from_deck`:
pop from the deck, diverting shkvarka-typed cards to
`pending_shkvarkas`; on an empty deck reshuffle the discard pile into
the deck (`_reshuffle_discard`) and stop if the deck is still empty.
`fuel` dominates the loop (each iteration pops one card); callers pass
enough fuel for the loop never to be cut short. -/
def draw_loop (env : Env) : Nat → Nat → List Card → List Card → List Card → List Card →
    List Card × List Card × List Card × List Card
  | 0, _, deck, discard, pending, acc => (acc, deck, discard, pending)
  | n + 1, count, deck, discard, pending, acc =>
    if count ≤ acc.length then (acc, deck, discard, pending)
    else
      match deck with
      | [] =>
        match env.shuffle discard with
        | [] => (acc, [], [], pending)
        | c :: deck2 =>
          if c.type = "shkvarka" then
            draw_loop env n count deck2 [] (pending ++ [c]) acc
          else
            draw_loop env n count deck2 [] pending (acc ++ [c])
      | c :: deck2 =>
        if c.type = "shkvarka" then
          draw_loop env n count deck2 discard (pending ++ [c]) acc
        else
          draw_loop env n count deck2 discard pending (acc ++ [c])

/-- `_get_cards_from_deck(count)`: returns the drawn cards and the state
with the deck, discard pile and pending shkvarkas updated. -/
def get_cards_from_deck (env : Env) (count : Int) (s : GState) : List Card × GState :=
  let r := draw_loop env (s.deck.length + s.discard_pile.length + 1) count.toNat
      s.deck s.discard_pile s.pending_shkvarkas []
  (r.1, { s with deck := r.2.1, discard_pile := r.2.2.1, pending_shkvarkas := r.2.2.2 })

/-- Consume the next queued player response
(`await asyncio.wait_for(response_future, timeout)`); an exhausted
queue is a timeout. -/
def pop_response : List PlayerResponse → PlayerResponse × List PlayerResponse
  | [] => (.timeout, [])
  | r :: rest => (r, rest)

/-- `_cards_selection_request(owner_id, cards, select_count, ...)`:
ask `selector` to pick `select_count` of `cards`; on a timeout or an
explicit `random_select` apply the `random.sample` fallback; on a
response of the wrong cardinality or naming an unknown card, re-issue
the request recursively.  Returns `((success, remaining, selected),
state, remaining responses)`.  The source saves `previous_state`, sets
`turn_state` to `WAITING_FOR_SELECTION`, and restores the saved state
before the response is processed. -/
def cards_selection_request (env : Env) (s : GState) (cards : List Card)
    (select_count : Int) : List PlayerResponse →
    (Bool × List Card × List Card) × GState × List PlayerResponse
  | [] =>
    if select_count ≤ 0 ∨ cards.length ≤ 0 then ((true, cards, []), s, [])
    else if (cards.length : Int) ≤ select_count then ((true, [], cards), s, [])
    else
      let previous := s.turn_state
      let s1 := { s with turn_state := GameState.waiting_for_selection }
      let s2 := { s1 with turn_state := previous }
      let idxs := sort_desc (env.sample cards.length select_count.toNat)
      let r := pop_indices cards idxs
      ((true, r.1, r.2), s2, [])
  | r0 :: rest =>
    if select_count ≤ 0 ∨ cards.length ≤ 0 then ((true, cards, []), s, r0 :: rest)
    else if (cards.length : Int) ≤ select_count then ((true, [], cards), s, r0 :: rest)
    else
      let previous := s.turn_state
      let s1 := { s with turn_state := GameState.waiting_for_selection }
      let s2 := { s1 with turn_state := previous }
      match r0 with
      | .timeout =>
        let idxs := sort_desc (env.sample cards.length select_count.toNat)
        let r := pop_indices cards idxs
        ((true, r.1, r.2), s2, rest)
      | .select true _ =>
        let idxs := sort_desc (env.sample cards.length select_count.toNat)
        let r := pop_indices cards idxs
        ((true, r.1, r.2), s2, rest)
      | .select false uids =>
        if (uids.length : Int) ≠ select_count then
          cards_selection_request env s2 cards select_count rest
        else
          match take_by_uids cards uids with
          | some (upd, disc) => ((true, upd, disc), s2, rest)
          | none => cards_selection_request env s2 cards select_count rest
      | .defense _ =>
        cards_selection_request env s2 cards select_count rest

/-- The sour-cream collection loop of `_check_sour_cream_defense`:
collect indexes of defense cards, breaking once
`smetana_count_for_defence` are found. -/
def sour_cream_scan : List Card → Nat → Int → List Nat
  | [], _, _ => []
  | c :: cs, i, needed =>
    if c.id = "sour_cream" ∧ c.type = "special" ∧ c.effect = "defense" then
      if needed ≤ 1 then [i]
      else i :: sour_cream_scan cs (i + 1) (needed - 1)
    else sour_cream_scan cs (i + 1) needed

/-- `_check_sour_cream_defense(target_player, card, target_cards)`:
returns whether the target spends sour cream; on a defense the sour
cream cards leave the target's hand for the discard pile.  The saved
`temp` turn state is restored after the defense request resolves. -/
def check_sour_cream_defense (env : Env) (s : GState) (target : Nat)
    (resps : List PlayerResponse) : Bool × GState × List PlayerResponse :=
  let hand := hand_of s target
  let idxs := sour_cream_scan hand 0 s.settings.smetana_count_for_defence
  if (idxs.length : Int) < s.settings.smetana_count_for_defence then (false, s, resps)
  else
    let temp := s.turn_state
    let s1 := { s with turn_state := GameState.waiting_for_defense }
    let pr := pop_response resps
    let s2 := { s1 with turn_state := temp }
    let used := match pr.1 with
      | .defense b => b
      | _ => false
    if used then
      let r := pop_indices hand (sort_desc idxs)
      let s3 := set_hand s2 target r.1
      let s4 := { s3 with discard_pile := s3.discard_pile ++ r.2 }
      (true, push_msg s4 "defense_successful", pr.2)
    else (false, s2, pr.2)

/-- `_handle_hand_limit(player_id)`: when the hand exceeds
`player_hand_limit`, set `turn_state` to `WAITING_FOR_DISCARD` (the
source never restores it here) and run a discard selection; the
discarded cards go to the discard pile.  Returns the success flag and
the remaining hand (the caller assigns it). -/
def handle_hand_limit (env : Env) (s : GState) (pid : Nat)
    (resps : List PlayerResponse) : (Bool × List Card) × GState × List PlayerResponse :=
  let current_hand := hand_of s pid
  match s.settings.player_hand_limit with
  | none => ((true, current_hand), s, resps)
  | some limit =>
    if (current_hand.length : Int) ≤ limit then ((true, current_hand), s, resps)
    else
      let s1 := { s with turn_state := GameState.waiting_for_discard }
      let cards_to_discard : Int := (current_hand.length : Int) - limit
      let r := cards_selection_request env s1 current_hand cards_to_discard resps
      let s2 := { r.2.1 with discard_pile := r.2.1.discard_pile ++ r.1.2.2 }
      ((r.1.1, r.1.2.1), push_msg s2 "cards_from_hand_discarded", r.2.2)

/-- `_handle_market_refill()`: top the market up to `market_capacity`
with deck draws. -/
def handle_market_refill (env : Env) (s : GState) : GState :=
  let cards_to_add : Int := s.settings.market_capacity - (s.market.length : Int)
  let r := get_cards_from_deck env cards_to_add s
  push_msg { r.2 with market := r.2.market ++ r.1 } "market_cards_added"

/-- `_handle_market_refresh(cards_to_discard)`: move the given market
cards (or the whole market) to the discard pile, then refill. -/
def handle_market_refresh (env : Env) (s : GState) (cards_to_discard : Option (List Card)) : GState :=
  let cards := cards_to_discard.getD s.market
  let s1 := { s with market := cards.foldl (fun m c => m.erase c) s.market,
                     discard_pile := s.discard_pile ++ cards }
  handle_market_refill env (push_msg s1 "cards_from_market_discarded")

/-- `_handle_market_limit()`: refill when under capacity; when over
capacity run a discard selection for the active player (saving and
restoring `turn_state` around it) and move the overflow to the discard
pile. -/
def handle_market_limit (env : Env) (s : GState)
    (resps : List PlayerResponse) : GState × List PlayerResponse :=
  let s1 := if (s.market.length : Int) < s.settings.market_capacity
    then handle_market_refill env s else s
  if (s1.market.length : Int) > s1.settings.market_capacity then
    let cards_to_discard : Int := (s1.market.length : Int) - s1.settings.market_capacity
    let temp_state := s1.turn_state
    let s2 := { s1 with turn_state := GameState.waiting_for_selection }
    let r := cards_selection_request env s2 s1.market cards_to_discard resps
    let s3 := { r.2.1 with discard_pile := r.2.1.discard_pile ++ r.1.2.2,
                           market := r.1.2.1 }
    let s4 := { s3 with turn_state := temp_state }
    (push_msg s4 "cards_from_market_discarded", r.2.2)
  else (s1, resps)

/-- `_is_market_free_refresh_available()`: true when some card id
occurs at least three times in the market. -/
def is_market_free_refresh_available (s : GState) : Bool :=
  s.market.any (fun c => 3 ≤ (s.market.countP (fun d => d.id = c.id)))

/-- `_handle_free_market_refresh()`. -/
def handle_free_market_refresh (env : Env) (s : GState) : (Bool × Option String) × GState :=
  if is_market_free_refresh_available s then
    ((true, none), handle_market_refresh env s none)
  else ((false, some "Free market refresh not available"), s)

/-- `_handle_add_ingredient(player_id, move_data)`. -/
def handle_add_ingredient (s : GState) (pid : Nat) (card_id : Option Nat) :
    (Bool × Option String) × GState :=
  match card_id with
  | none => ((false, some "Card ID required to add ingredient"), s)
  | some uid =>
    match find_card (hand_of s pid) uid with
    | none => ((false, some "Card not in hand"), s)
    | some (i, card) =>
      if card.type = "special" then
        ((false, some "Special ingredients cannot be added to borsht"), s)
      else if card.type = "extra" ∧ ¬ s.settings.extra_cards_allowed then
        ((false, some "Extra cards not allowed"), s)
      else if (card.type = "regular" ∨ card.type = "rare") ∧
          card.id ∉ (recipe_of s pid).ingredients then
        ((false, some "Card not in your recipe"), s)
      else if (borsht_of s pid).any (fun b => b.id = card.id) then
        ((false, some "You already have this ingredient in your borsht"), s)
      else
        let s1 := set_borsht s pid (borsht_of s pid ++ [card])
        let s2 := set_hand s1 pid ((hand_of s1 pid).eraseIdx i)
        ((true, none), push_msg s2 "ingredient_added")

/-- `_handle_draw_cards(player_id)`. -/
def handle_draw_cards (env : Env) (s : GState) (pid : Nat) :
    (Bool × Option String) × GState :=
  let r := get_cards_from_deck env s.settings.cards_to_draw s
  if r.1.length = 0 then ((false, some "No cards available to draw"), r.2)
  else
    let s1 := set_hand r.2 pid (hand_of r.2 pid ++ r.1)
    ((true, none), push_msg s1 "cards_drawn")

/-- The move payload (`move_data` dict) fields the Borsht handlers read.
`target_cards` is the uid list read by the chili-pepper handler;
`target_cards_map` is the player-to-uid dict read by the black-pepper
handler (the same JSON key, shaped per action). -/
structure MoveData where
  action : Option String := none
  card_id : Option Nat := none
  target_player : Option Nat := none
  target_cards : List Nat := []
  target_cards_map : List (Nat × Nat) := []
  action_type : Option String := none
  hand_cards : Option (List Nat) := none
  market_cards : Option (List Nat) := none
deriving DecidableEq

/-- `_handle_cinnamon(player_id)`: pick up to `cinnamon_select_count`
cards from the discard pile (an empty pile returns success with a
message, as the source does). -/
def handle_cinnamon (env : Env) (s : GState) (pid : Nat)
    (resps : List PlayerResponse) : (Bool × Option String) × GState × List PlayerResponse :=
  if s.discard_pile.length = 0 then ((true, some "No cards in discard pile"), s, resps)
  else
    let max_select := min s.settings.cinnamon_select_count (s.discard_pile.length : Int)
    let r := cards_selection_request env s s.discard_pile max_select resps
    let s1 := { r.2.1 with discard_pile := r.1.2.1 }
    let s2 := set_hand s1 pid (hand_of s1 pid ++ r.1.2.2)
    ((true, none), push_msg s2 "cards_from_discard_selected", r.2.2)

/-- `_handle_paprika()`: set `WAITING_FOR_EXCHANGE` and refresh the
market. -/
def handle_paprika (env : Env) (s : GState) : (Bool × Option String) × GState :=
  let s1 := { s with turn_state := GameState.waiting_for_exchange }
  ((true, none), handle_market_refresh env s1 none)

/-- `_handle_olive_oil(player_id)`: look at the top
`olive_oil_look_count` cards, keep `olive_oil_select_count` of them and
put the rest back.  The write-back
`self.deck = cards_to_return + self.deck[look_count:]` slices the deck
that `_get_cards_from_deck` has already popped, dropping up to
`look_count` further cards; the embedding reproduces this faithfully. -/
def handle_olive_oil (env : Env) (s : GState) (pid : Nat)
    (resps : List PlayerResponse) : (Bool × Option String) × GState × List PlayerResponse :=
  let look_count := s.settings.olive_oil_look_count
  let select_count := s.settings.olive_oil_select_count
  if (s.deck.length : Int) < select_count then
    ((false, some "Not enough cards in deck"), s, resps)
  else
    let s1 := { s with turn_state := GameState.waiting_for_selection }
    let d := get_cards_from_deck env look_count s1
    let r := cards_selection_request env d.2 d.1 select_count resps
    let s3 := r.2.1
    let s4 := { s3 with deck := r.1.2.1 ++ s3.deck.drop look_count.toNat }
    let s5 := set_hand s4 pid (hand_of s4 pid ++ r.1.2.2)
    ((true, none), s5, r.2.2)

/-- `_handle_ginger(player_id)`: pick up to `ginger_select_count`
market cards, then refill the market. -/
def handle_ginger (env : Env) (s : GState) (pid : Nat)
    (resps : List PlayerResponse) : (Bool × Option String) × GState × List PlayerResponse :=
  if s.market.length = 0 then ((false, some "No cards in market"), s, resps)
  else
    let s1 := { s with turn_state := GameState.waiting_for_selection }
    let max_select := min s1.settings.ginger_select_count (s1.market.length : Int)
    let r := cards_selection_request env s1 s1.market max_select resps
    let s2 := { r.2.1 with market := r.1.2.1 }
    let s3 := set_hand s2 pid (hand_of s2 pid ++ r.1.2.2)
    let s4 := push_msg s3 "market_cards_taken"
    ((true, none), handle_market_refill env s4, r.2.2)

/-- The effect-application loop of `_handle_chili_pepper`: pop the
target cards from the target's borsht (indices sorted descending) and
either steal them into the acting player's borsht (discarding
duplicates) or discard them. -/
def chili_apply (pid tp : Nat) (steal : Bool) (objs : List (Nat × Card)) (s : GState) : GState :=
  objs.foldl (fun st ic =>
    let st1 := set_borsht st tp ((borsht_of st tp).eraseIdx ic.1)
    if steal then
      if (borsht_of st1 pid).any (fun c => c.id = ic.2.id) then
        { st1 with discard_pile := st1.discard_pile ++ [ic.2] }
      else set_borsht st1 pid (borsht_of st1 pid ++ [ic.2])
    else { st1 with discard_pile := st1.discard_pile ++ [ic.2] }) s

/-- `_handle_chili_pepper(player_id, move_data)`. -/
def handle_chili_pepper (env : Env) (s : GState) (pid : Nat) (m : MoveData)
    (resps : List PlayerResponse) : (Bool × Option String) × GState × List PlayerResponse :=
  match m.card_id with
  | none => ((false, some "Card ID required to play Chili Pepper"), s, resps)
  | some uid =>
    match find_card (hand_of s pid) uid with
    | none => ((false, some "Card not in hand"), s, resps)
    | some (_, pepper_card) =>
      if pepper_card.id ≠ "chili_pepper" then
        ((false, some "Selected card is not Chili Pepper"), s, resps)
      else
        match m.target_player with
        | none => ((false, some "Target player, target cards, and action type required"), s, resps)
        | some tp =>
          if tp = 0 ∨ m.target_cards = [] ∨ m.action_type = none ∨ m.action_type = some "" then
            ((false, some "Target player, target cards, and action type required"), s, resps)
          else if m.action_type ≠ some "steal" ∧ m.action_type ≠ some "discard" then
            ((false, some "Invalid action type. Must be 'steal' or 'discard'"), s, resps)
          else if tp ∉ s.players ∨ some tp = s.first_finisher then
            ((false, some "Invalid target player"), s, resps)
          else
            let select_count := min s.settings.chili_pepper_discard_count
              ((borsht_of s tp).length : Int)
            if (m.target_cards.length : Int) ≠ select_count then
              ((false, some "Should be targeting a different number of cards"), s, resps)
            else
              match collect_cards (borsht_of s tp) m.target_cards with
              | none => ((false, some "Card not found in target borsht"), s, resps)
              | some objs =>
                let s1 := push_msg s "special_effect"
                let d := check_sour_cream_defense env s1 tp resps
                if d.1 then
                  ((true, some "Target defended with Sour Cream"), d.2.1, d.2.2)
                else
                  let sorted_objs := List.insertionSort (fun a b => b.1 ≤ a.1) objs
                  let s2 := chili_apply pid tp (m.action_type = some "steal") sorted_objs d.2.1
                  ((true, none), push_msg s2 "chili_pepper_effect_applied", d.2.2)

/-- The per-target loop of `_handle_black_pepper_steal`: skip empty
hands, offer a sour-cream defense, otherwise steal a random card.
The final `Nat` counts stolen cards. -/
def black_pepper_steal_loop (env : Env) (pid : Nat) :
    List Nat → GState → List PlayerResponse → Nat → GState × List PlayerResponse × Nat
  | [], s, resps, n => (s, resps, n)
  | t :: ts, s, resps, n =>
    if (hand_of s t).length = 0 then black_pepper_steal_loop env pid ts s resps n
    else
      let d := check_sour_cream_defense env s t resps
      if d.1 then black_pepper_steal_loop env pid ts d.2.1 d.2.2 n
      else
        let hand := hand_of d.2.1 t
        let i := env.randint hand.length
        let stolen_card := hand.getD i default
        let s1 := set_hand d.2.1 t (hand.eraseIdx i)
        let s2 := set_hand s1 pid (hand_of s1 pid ++ [stolen_card])
        black_pepper_steal_loop env pid ts (push_msg s2 "card_stolen") d.2.2 (n + 1)

/-- The validation loop of `_handle_black_pepper_discard`: every target
with a non-empty borsht must have a selected card that is in their
borsht. -/
def black_pepper_validate (s : GState) (tmap : List (Nat × Nat)) : List Nat → Option String
  | [] => none
  | t :: ts =>
    if (borsht_of s t).length = 0 then black_pepper_validate s tmap ts
    else
      match tmap.find? (fun p => p.1 = t) with
      | none => some "Missing target card selection"
      | some p =>
        if (borsht_of s t).any (fun c => c.uid = p.2) then black_pepper_validate s tmap ts
        else some "Card not found in target borsht"

/-- The application loop of `_handle_black_pepper_discard`: skip empty
borshts and falsy uids, offer a defense, otherwise discard the selected
borsht card.  The final `Nat` counts discarded cards. -/
def black_pepper_discard_loop (env : Env) (tmap : List (Nat × Nat)) :
    List Nat → GState → List PlayerResponse → Nat → GState × List PlayerResponse × Nat
  | [], s, resps, n => (s, resps, n)
  | t :: ts, s, resps, n =>
    if (borsht_of s t).length = 0 then black_pepper_discard_loop env tmap ts s resps n
    else
      match (tmap.find? (fun p => p.1 = t)).map Prod.snd with
      | none => black_pepper_discard_loop env tmap ts s resps n
      | some uid =>
        if uid = 0 then black_pepper_discard_loop env tmap ts s resps n
        else
          let fc := find_card (borsht_of s t) uid
          let d := check_sour_cream_defense env s t resps
          if d.1 then black_pepper_discard_loop env tmap ts d.2.1 d.2.2 n
          else
            match fc with
            | none => black_pepper_discard_loop env tmap ts d.2.1 d.2.2 n
            | some (i, c) =>
              let s1 := set_borsht d.2.1 t ((borsht_of d.2.1 t).eraseIdx i)
              let s2 := { s1 with discard_pile := s1.discard_pile ++ [c] }
              black_pepper_discard_loop env tmap ts (push_msg s2 "borsht_card_discarded") d.2.2 (n + 1)

/-- `_handle_black_pepper(player_id, move_data)`. -/
def handle_black_pepper (env : Env) (s : GState) (pid : Nat) (m : MoveData)
    (resps : List PlayerResponse) : (Bool × Option String) × GState × List PlayerResponse :=
  match m.card_id with
  | none => ((false, some "Card ID required to play Black Pepper"), s, resps)
  | some uid =>
    match find_card (hand_of s pid) uid with
    | none => ((false, some "Card not in hand"), s, resps)
    | some (_, card) =>
      if card.id ≠ "black_pepper" then
        ((false, some "Selected card is not Black Pepper"), s, resps)
      else if m.action_type = none ∨ m.action_type = some "" then
        ((false, some "Action type required"), s, resps)
      else if m.action_type ≠ some "steal" ∧ m.action_type ≠ some "discard" then
        ((false, some "Invalid action type. Must be 'steal' or 'discard'"), s, resps)
      else
        let valid_targets := s.players.filter (fun p => p ≠ pid ∧ some p ≠ s.first_finisher)
        if valid_targets = [] then ((false, some "No valid targets available"), s, resps)
        else
          let s1 := push_msg s "special_effect"
          if m.action_type = some "steal" then
            let r := black_pepper_steal_loop env pid valid_targets s1 resps 0
            if r.2.2 = 0 then
              ((true, some "No cards were stolen - all players defended or had empty hands"), r.1, r.2.1)
            else ((true, none), r.1, r.2.1)
          else
            if m.target_cards_map = [] then
              ((false, some "Target cards are required for discard action"), s, resps)
            else
              match black_pepper_validate s1 m.target_cards_map valid_targets with
              | some err => ((false, some err), s, resps)
              | none =>
                let r := black_pepper_discard_loop env m.target_cards_map valid_targets s1 resps 0
                if r.2.2 = 0 then
                  ((true, some "No cards were discarded - all players defended or had empty borsht"), r.1, r.2.1)
                else ((true, none), r.1, r.2.1)

/-- The validation and swap of `_handle_exchange` up to (not including)
`_handle_market_limit`: the cost comparison and the atomic swap of the
offered hand cards with the requested market cards. -/
def exchange_core (s : GState) (pid : Nat) (hand_cards market_cards : List Nat) :
    (Bool × Option String) × GState :=
  if hand_cards.length ≠ 1 ∧ market_cards.length ≠ 1 then
    ((false, some "Exchange must be 1-to-many or many-to-1"), s)
  else
    match collect_cards (hand_of s pid) hand_cards with
    | none => ((false, some "Card not in hand"), s)
    | some hobjs =>
      match collect_cards s.market market_cards with
      | none => ((false, some "Card not in market"), s)
      | some mobjs =>
        let hand_total := (hobjs.map (fun p => p.2.cost)).sum
        let market_total := (mobjs.map (fun p => p.2.cost)).sum
        let price := market_total + s.settings.market_exchange_tax
        if hand_total < price then
          ((false, some "Hand card value must cover the market cards total plus the tax"), s)
        else
          let new_hand := remove_indices (hand_of s pid) (sort_desc (hobjs.map Prod.fst))
            ++ mobjs.map Prod.snd
          let new_market := remove_indices s.market (sort_desc (mobjs.map Prod.fst))
            ++ hobjs.map Prod.snd
          let s1 := set_hand s pid new_hand
          let s2 := { s1 with market := new_market }
          ((true, none), push_msg s2 "ingredients_exchanged")

/-- `_handle_exchange(player_id, move_data)`: `exchange_core` followed,
on success, by `_handle_market_limit`. -/
def handle_exchange (env : Env) (s : GState) (pid : Nat)
    (hand_cards market_cards : Option (List Nat)) (resps : List PlayerResponse) :
    (Bool × Option String) × GState × List PlayerResponse :=
  match hand_cards, market_cards with
  | some hc, some mc =>
    let r := exchange_core s pid hc mc
    if r.1.1 then
      let ml := handle_market_limit env r.2 resps
      (r.1, ml.1, ml.2)
    else (r.1, r.2, resps)
  | _, _ => ((false, some "Hand cards and market cards required for exchange"), s, resps)

/-- Indices (ascending) of the cards satisfying a predicate
(the `for idx, ingredient in enumerate(...)` collection loops). -/
def indices_where : List Card → (Card → Bool) → Nat → List Nat
  | [], _, _ => []
  | c :: cs, p, i =>
    if p c then i :: indices_where cs p (i + 1) else indices_where cs p (i + 1)

/-- The shared removal pattern of the shkvarka handlers: pop the first
uid match of the selected card from a borsht (no pop if absent) and
append the card to the discard pile, with a broadcast. -/
def discard_selected_from_borsht (s : GState) (owner : Nat) (dc : Card) : GState :=
  let b := borsht_of s owner
  let b1 := match find_card b dc.uid with
    | some ic => b.eraseIdx ic.1
    | none => b
  let s1 := set_borsht s owner b1
  push_msg { s1 with discard_pile := s1.discard_pile ++ [dc] } "borsht_card_discarded"

/-- `_handle_shkvarka_u_komori_myshi`: each player discards 2 cards
from the hand of the player to their left (the embedding runs the
fanned-out selections in roster order, one admissible schedule of the
concurrent tasks). -/
def shk_u_komori_loop (env : Env) : List Nat → GState → List PlayerResponse →
    GState × List PlayerResponse
  | [], s, resps => (s, resps)
  | left :: rest, s, resps =>
    let r := cards_selection_request env s (hand_of s left) 2 resps
    let s1 := set_hand r.2.1 left r.1.2.1
    let s2 := { s1 with discard_pile := s1.discard_pile ++ r.1.2.2 }
    shk_u_komori_loop env rest (push_msg s2 "shkvarka_effect_discard") r.2.2

def shk_u_komori (env : Env) (s : GState) (resps : List PlayerResponse) :
    GState × List PlayerResponse :=
  shk_u_komori_loop env (s.players.rotate 1) s resps

/-- `_handle_shkvarka_garmyder_na_kuhni`: recipes pass to the left;
borsht cards not in the new recipe (except extras) are discarded. -/
def shk_garmyder (s : GState) : GState :=
  let ids := s.players
  let old := s.player_recipes
  let s1 := (ids.zip (ids.rotate 1)).foldl
    (fun st pr => { st with player_recipes := setKey st.player_recipes pr.1 (lookupD old pr.2) }) s
  ids.foldl (fun st pid =>
    let req := (recipe_of st pid).ingredients
    let keep := (borsht_of st pid).filter (fun c => c.id ∈ req ∨ c.type = "extra")
    let gone := (borsht_of st pid).filter (fun c => ¬(c.id ∈ req ∨ c.type = "extra"))
    let st1 := set_borsht st pid keep
    push_msg { st1 with discard_pile := st1.discard_pile ++ gone } "borsht_card_discarded") s1

/-- `_handle_shkvarka_zazdrisni_susidy`: the player with the most
borsht points discards one rare ingredient.  `if not max_points_player`
is Python falsiness, so a top player with id `0` aborts the effect. -/
def shk_zazdrisni (env : Env) (s : GState) (resps : List PlayerResponse) :
    GState × List PlayerResponse :=
  let pts := fun p => ((borsht_of s p).map Card.points).sum
  let mp := s.players.foldl
    (fun (acc : Int × Option Nat) p => if pts p > acc.1 then (pts p, some p) else acc)
    (-1, none)
  match mp.2 with
  | none => (s, resps)
  | some mpp =>
    if mpp = 0 then (s, resps)
    else
      let rare := (borsht_of s mpp).filter (fun c => c.type = "rare" ∧ ¬c.face_down)
      if rare = [] then (push_msg s "shkvarka_effect_no_rare", resps)
      else
        let r := cards_selection_request env s rare 1 resps
        if r.1.1 ∧ r.1.2.2 ≠ [] then
          (discard_selected_from_borsht r.2.1 mpp (r.1.2.2.headD default), r.2.2)
        else (r.2.1, r.2.2)

/-- `_handle_shkvarka_kuhar_rozbazikav`. -/
def shk_kuhar (s : GState) : GState := { s with recipes_revealed := true }

/-- `_handle_shkvarka_mityng_zahysnykiv`: each player discards pork or
beef from their borsht. -/
def shk_mityng_loop (env : Env) : List Nat → GState → List PlayerResponse →
    GState × List PlayerResponse
  | [], s, resps => (s, resps)
  | p :: ps, s, resps =>
    let meat := (borsht_of s p).filter
      (fun c => ¬c.face_down ∧ (c.id = "pork" ∨ c.id = "beef"))
    if meat = [] then shk_mityng_loop env ps s resps
    else
      let r := cards_selection_request env s meat 1 resps
      if r.1.1 ∧ r.1.2.2 ≠ [] then
        shk_mityng_loop env ps
          (discard_selected_from_borsht r.2.1 p (r.1.2.2.headD default)) r.2.2
      else shk_mityng_loop env ps r.2.1 r.2.2

def shk_mityng (env : Env) (s : GState) (resps : List PlayerResponse) :
    GState × List PlayerResponse :=
  shk_mityng_loop env s.players s resps

/-- Selection phase of `_handle_shkvarka_yarmarok`: each player picks a
hand card to pass. -/
def shk_yarmarok_phase1 (env : Env) : List Nat → GState → List PlayerResponse →
    GState × List (Nat × Card) × List PlayerResponse
  | [], s, resps => (s, [], resps)
  | p :: ps, s, resps =>
    if hand_of s p = [] then shk_yarmarok_phase1 env ps s resps
    else
      let r := cards_selection_request env s (hand_of s p) 1 resps
      if r.1.1 ∧ r.1.2.2 ≠ [] then
        let s1 := set_hand r.2.1 p r.1.2.1
        let rec2 := shk_yarmarok_phase1 env ps s1 r.2.2
        (rec2.1, (p, r.1.2.2.headD default) :: rec2.2.1, rec2.2.2)
      else shk_yarmarok_phase1 env ps r.2.1 r.2.2

/-- `_handle_shkvarka_yarmarok`: each player passes a selected hand
card to the player on their left. -/
def shk_yarmarok (env : Env) (s : GState) (resps : List PlayerResponse) :
    GState × List PlayerResponse :=
  let ph := shk_yarmarok_phase1 env s.players s resps
  let s2 := (s.players.zip (s.players.rotate 1)).foldl (fun st pr =>
    match ph.2.1.find? (fun q => q.1 = pr.1) with
    | some q => set_hand st pr.2 (hand_of st pr.2 ++ [q.2])
    | none => st) ph.1
  (s2, ph.2.2)

/-- `_handle_shkvarka_vtratyv_niuh`: each player discards an extra
ingredient from the borsht of the player to their right. -/
def shk_vtratyv_loop (env : Env) : List Nat → GState → List PlayerResponse →
    GState × List PlayerResponse
  | [], s, resps => (s, resps)
  | right :: rest, s, resps =>
    let extras := (borsht_of s right).filter (fun c => c.type = "extra" ∧ ¬c.face_down)
    if extras = [] then shk_vtratyv_loop env rest s resps
    else
      let r := cards_selection_request env s extras 1 resps
      if r.1.1 ∧ r.1.2.2 ≠ [] then
        shk_vtratyv_loop env rest
          (discard_selected_from_borsht r.2.1 right (r.1.2.2.headD default)) r.2.2
      else shk_vtratyv_loop env rest r.2.1 r.2.2

def shk_vtratyv (env : Env) (s : GState) (resps : List PlayerResponse) :
    GState × List PlayerResponse :=
  shk_vtratyv_loop env (s.players.rotate (s.players.length - 1)) s resps

/-- `_handle_shkvarka_den_vrozhaiu`: each player discards a borsht
ingredient that is currently in the market. -/
def shk_den_loop (env : Env) (market_ids : List String) : List Nat → GState →
    List PlayerResponse → GState × List PlayerResponse
  | [], s, resps => (s, resps)
  | p :: ps, s, resps =>
    let matching := (borsht_of s p).filter
      (fun c => c.id ∈ market_ids ∧ ¬c.face_down)
    if matching = [] then shk_den_loop env market_ids ps s resps
    else
      let r := cards_selection_request env s matching 1 resps
      if r.1.1 ∧ r.1.2.2 ≠ [] then
        shk_den_loop env market_ids ps
          (discard_selected_from_borsht r.2.1 p (r.1.2.2.headD default)) r.2.2
      else shk_den_loop env market_ids ps r.2.1 r.2.2

def shk_den (env : Env) (s : GState) (resps : List PlayerResponse) :
    GState × List PlayerResponse :=
  shk_den_loop env (s.market.map Card.id) s.players s resps

/-- `_handle_shkvarka_zgorila_zasmazhka`: every player (the first
finisher included) discards all face-up onions and carrots from their
borsht. -/
def shk_zgorila (s : GState) : GState :=
  s.players.foldl (fun st pid =>
    let b := borsht_of st pid
    let idxs := indices_where b
      (fun c => ¬c.face_down ∧ (c.id = "onion" ∨ c.id = "carrot")) 0
    if idxs = [] then st
    else
      let r := pop_indices b (sort_desc idxs)
      let st1 := set_borsht st pid r.1
      push_msg { st1 with discard_pile := st1.discard_pile ++ r.2 } "borsht_card_discarded") s

/-- `_handle_shkvarka_zagubyly_spysok`: each player discards a borsht
ingredient that is not currently in the market. -/
def shk_zagubyly_loop (env : Env) (market_ids : List String) : List Nat → GState →
    List PlayerResponse → GState × List PlayerResponse
  | [], s, resps => (s, resps)
  | p :: ps, s, resps =>
    let matching := (borsht_of s p).filter
      (fun c => c.id ∉ market_ids ∧ ¬c.face_down)
    if matching = [] then shk_zagubyly_loop env market_ids ps s resps
    else
      let r := cards_selection_request env s matching 1 resps
      if r.1.1 ∧ r.1.2.2 ≠ [] then
        shk_zagubyly_loop env market_ids ps
          (discard_selected_from_borsht r.2.1 p (r.1.2.2.headD default)) r.2.2
      else shk_zagubyly_loop env market_ids ps r.2.1 r.2.2

def shk_zagubyly (env : Env) (s : GState) (resps : List PlayerResponse) :
    GState × List PlayerResponse :=
  shk_zagubyly_loop env (s.market.map Card.id) s.players s resps

/-- `_handle_shkvarka_rozsypaly_specii`: each player discards an
ingredient from the borsht of the player to their left; the target may
defend with sour cream.  The first finisher is skipped as target. -/
def shk_rozsypaly_loop (env : Env) : List Nat → GState → List PlayerResponse →
    GState × List PlayerResponse
  | [], s, resps => (s, resps)
  | left :: rest, s, resps =>
    if borsht_of s left = [] ∨ some left = s.first_finisher then
      shk_rozsypaly_loop env rest s resps
    else
      let valid := (borsht_of s left).filter (fun c => ¬c.face_down)
      if valid = [] then shk_rozsypaly_loop env rest s resps
      else
        let r := cards_selection_request env s valid 1 resps
        if r.1.1 ∧ r.1.2.2 ≠ [] then
          let d := check_sour_cream_defense env r.2.1 left r.2.2
          if d.1 then shk_rozsypaly_loop env rest d.2.1 d.2.2
          else
            shk_rozsypaly_loop env rest
              (discard_selected_from_borsht d.2.1 left (r.1.2.2.headD default)) d.2.2
        else shk_rozsypaly_loop env rest r.2.1 r.2.2

def shk_rozsypaly (env : Env) (s : GState) (resps : List PlayerResponse) :
    GState × List PlayerResponse :=
  shk_rozsypaly_loop env (s.players.rotate 1) s resps

/-- `_handle_shkvarka_postachalnyk_pereplutav`: starting with the
active player, each player discards their hand and draws 5 cards. -/
def shk_postachalnyk_loop (env : Env) : List Nat → GState → GState
  | [], s => s
  | p :: ps, s =>
    let s1 := { s with discard_pile := s.discard_pile ++ hand_of s p }
    let s2 := set_hand s1 p []
    let d := get_cards_from_deck env 5 s2
    let s3 := set_hand d.2 p d.1
    shk_postachalnyk_loop env ps (push_msg s3 "cards_from_hand_discarded")

def shk_postachalnyk (env : Env) (s : GState) : GState :=
  let ids := s.players
  let ordered := match ids.indexOf? (current_player_id s) with
    | none => ids
    | some i => ids.rotate i
  shk_postachalnyk_loop env ordered s

/-- `_handle_shkvarka_defolt_crisa`. -/
def shk_defolt (s : GState) : GState :=
  { s with settings := { s.settings with market_exchange_tax := 1 } }

/-- `_handle_shkvarka_sanepidemstancia`: lower the market capacity by 2
and re-run the market limit. -/
def shk_sanepid (env : Env) (s : GState) (resps : List PlayerResponse) :
    GState × List PlayerResponse :=
  let s1 := { s with settings :=
    { s.settings with market_capacity := s.settings.market_capacity - 2 } }
  handle_market_limit env s1 resps

/-- `_handle_shkvarka_kayenskyi_perec`. -/
def shk_kayenskyi (s : GState) : GState :=
  { s with settings := { s.settings with chili_pepper_discard_count := 2 } }

/-- `_handle_shkvarka_porvalas_torbynka`: lower the hand limit to 4 and
trim every hand. -/
def shk_porvalas_loop (env : Env) : List Nat → GState → List PlayerResponse →
    GState × List PlayerResponse
  | [], s, resps => (s, resps)
  | p :: ps, s, resps =>
    let r := handle_hand_limit env s p resps
    let s1 := if r.1.1 then set_hand r.2.1 p r.1.2 else r.2.1
    shk_porvalas_loop env ps s1 r.2.2

def shk_porvalas (env : Env) (s : GState) (resps : List PlayerResponse) :
    GState × List PlayerResponse :=
  let s1 := { s with settings := { s.settings with player_hand_limit := some 4 } }
  shk_porvalas_loop env s.players s1 resps

/-- `_handle_shkvarka_peresolyly`. -/
def shk_peresolyly (s : GState) : GState :=
  { s with settings := { s.settings with extra_cards_allowed := false } }

/-- `_handle_shkvarka_molochka_skysla`. -/
def shk_molochka (s : GState) : GState :=
  { s with settings := { s.settings with smetana_count_for_defence := 2 } }

/-- The dynamic dispatch `self.__getattribute__(f"_handle_shkvarka_{id}")`.
`blackout` and `zlodyi_nevdaha` are `pass` bodies in the source; ids
with no handler would raise `AttributeError` and are embedded as the
identity (no theorem exercises them). -/
def shkvarka_dispatch (env : Env) (card : Card) (s : GState)
    (resps : List PlayerResponse) : GState × List PlayerResponse :=
  if card.id = "u_komori_myshi" then shk_u_komori env s resps
  else if card.id = "garmyder_na_kuhni" then (shk_garmyder s, resps)
  else if card.id = "zazdrisni_susidy" then shk_zazdrisni env s resps
  else if card.id = "kuhar_rozbazikav" then (shk_kuhar s, resps)
  else if card.id = "mityng_zahysnykiv" then shk_mityng env s resps
  else if card.id = "yarmarok" then shk_yarmarok env s resps
  else if card.id = "vtratyv_niuh" then shk_vtratyv env s resps
  else if card.id = "den_vrozhaiu" then shk_den env s resps
  else if card.id = "zgorila_zasmazhka" then (shk_zgorila s, resps)
  else if card.id = "zagubyly_spysok" then shk_zagubyly env s resps
  else if card.id = "rozsypaly_specii" then shk_rozsypaly env s resps
  else if card.id = "postachalnyk_pereplutav" then (shk_postachalnyk env s, resps)
  else if card.id = "defolt_crisa" then (shk_defolt s, resps)
  else if card.id = "sanepidemstancia" then shk_sanepid env s resps
  else if card.id = "kayenskyi_perec" then (shk_kayenskyi s, resps)
  else if card.id = "porvalas_torbynka" then shk_porvalas env s resps
  else if card.id = "peresolyly" then (shk_peresolyly s, resps)
  else if card.id = "molochka_skysla" then (shk_molochka s, resps)
  else (s, resps)

/-- `_handle_shkvarka(player_id, card)`: broadcast the draw, register a
permanent shkvarka, and run the handler between a `turn_state` save and
restore. -/
def handle_shkvarka (env : Env) (s : GState) (card : Card)
    (resps : List PlayerResponse) : GState × List PlayerResponse :=
  let s1 := push_msg s "shkvarka_drawn"
  let s2 := if card.subtype = "permanent"
    then { s1 with active_shkvarkas := s1.active_shkvarkas ++ [card] } else s1
  let temp := s2.turn_state
  let s3 := { s2 with turn_state := GameState.waiting_for_selection }
  let r := shkvarka_dispatch env card s3 resps
  ({ r.1 with turn_state := temp }, r.2)

/-- The `for card in self.pending_shkvarkas` iteration of
`_process_shkvarkas`: Python iterates the live list, so shkvarkas
appended by a handler's own draws are processed too; `fuel` is sized by
the caller to cover every card that can enter the list. -/
def process_shkvarkas_loop (env : Env) : Nat → Nat → GState → List PlayerResponse →
    GState × List PlayerResponse
  | 0, _, s, resps => (s, resps)
  | fuel + 1, i, s, resps =>
    match s.pending_shkvarkas.get? i with
    | none => (s, resps)
    | some c =>
      let r := handle_shkvarka env s c resps
      process_shkvarkas_loop env fuel (i + 1) r.1 r.2

/-- `_process_shkvarkas()`: process the pending shkvarkas for the
current player, then clear the list. -/
def process_shkvarkas (env : Env) (s : GState) (resps : List PlayerResponse) :
    GState × List PlayerResponse :=
  let fuel := s.pending_shkvarkas.length + s.deck.length + s.discard_pile.length + 1
  let r := process_shkvarkas_loop env fuel 0 s resps
  ({ r.1 with pending_shkvarkas := [] }, r.2)

/-- `_handle_special_ingredient(player_id, move_data)`: dispatch on the
card's `effect`; on success the special card leaves the hand for the
discard pile.  The returned triple is `(success, error, is_move_continues)`
(a success's effect error message is dropped by the source). -/
def handle_special_ingredient (env : Env) (s : GState) (pid : Nat) (m : MoveData)
    (resps : List PlayerResponse) : (Bool × Option String × Bool) × GState × List PlayerResponse :=
  match m.card_id with
  | none => ((false, some "Card ID required to play special ingredient", true), s, resps)
  | some uid =>
    match find_card (hand_of s pid) uid with
    | none => ((false, some "Card not in hand", true), s, resps)
    | some (card_index, card) =>
      if card.type ≠ "special" then
        ((false, some "Card is not a special ingredient", true), s, resps)
      else
        let e := card.effect
        let r : (Bool × Option String) × Bool × GState × List PlayerResponse :=
          if e = "steal_or_discard" then
            let h := handle_chili_pepper env s pid m resps
            (h.1, false, h.2.1, h.2.2)
          else if e = "discard_or_take" then
            let h := handle_black_pepper env s pid m resps
            (h.1, false, h.2.1, h.2.2)
          else if e = "defense" then
            ((false, some "Sour Cream is used defensively when targeted by another player"),
              true, s, resps)
          else if e = "take_market" then
            let h := handle_ginger env s pid resps
            (h.1, false, h.2.1, h.2.2)
          else if e = "take_discard" then
            let h := handle_cinnamon env s pid resps
            (h.1, false, h.2.1, h.2.2)
          else if e = "look_top_5" then
            let h := handle_olive_oil env s pid resps
            (h.1, false, h.2.1, h.2.2)
          else if e = "refresh_market" then
            let h := handle_paprika env s
            (h.1, true, h.2, resps)
          else ((false, none), false, s, resps)
        if ¬ r.1.1 then ((false, r.1.2, true), r.2.2.1, r.2.2.2)
        else
          let sr := r.2.2.1
          let s1 := set_hand sr pid ((hand_of sr pid).eraseIdx card_index)
          let s2 := { s1 with discard_pile := s1.discard_pile ++ [card] }
          ((true, none, r.2.1), push_msg s2 "special_played", r.2.2.2)

/-- `_check_recipe_completion(player_id)`: the borsht's regular, rare
and `vinnik_lard` cards must reach the recipe's ingredient count. -/
def check_recipe_completion (s : GState) (pid : Nat) : Bool :=
  let recipe := recipe_of s pid
  let pb := (borsht_of s pid).filter
    (fun c => c.type = "regular" ∨ c.type = "rare" ∨ c.id = "vinnik_lard")
  recipe.ingredients.length ≤ pb.length

/-- The `for level, points in sorted(recipe.levels.items())` loop of
`_determine_winner` (no early break): the bonus of the highest level
reached. -/
def recipe_bonus_levels (levels : List (Nat × Int)) (completion : Nat) : Int :=
  (List.insertionSort (fun a b => a.1 ≤ b.1) levels).foldl
    (fun acc lv => if lv.1 ≤ completion then lv.2 else acc) 0

/-- The completed-ingredient count of `_determine_winner`: recipe
ingredients present in the borsht, with `vinnik_lard` always counted. -/
def completion_count (s : GState) (pid : Nat) : Nat :=
  let ings := (borsht_of s pid).map Card.id
  ((recipe_of s pid).ingredients.filter (fun ing => ing ∈ ings ∨ ing = "vinnik_lard")).length

/-- A player's final score as `_determine_winner` computes it: borsht
points, plus the recipe level bonus, plus 2 for the first finisher. -/
def player_score (s : GState) (pid : Nat) : Int :=
  let base := ((borsht_of s pid).map Card.points).sum
  let bonus := recipe_bonus_levels (recipe_of s pid).levels (completion_count s pid)
  let first : Int := if some pid = s.first_finisher then 2 else 0
  base + bonus + first

/-- Total cost of the cards left in a player's hand (the first
tie-break quantity). -/
def hand_cost (s : GState) (pid : Nat) : Int :=
  ((hand_of s pid).map Card.cost).sum

/-- The winner scan of `_determine_winner`: strict improvement takes
the lead; on a tie the challenger displaces the leader if their hand
cost is strictly higher, else if they are the first finisher, else if
the first finisher is neither of the two and the challenger made
strictly fewer moves.  (A tie against an empty lead slot would raise a
`KeyError` in the source; the embedding hands the lead to the
challenger there, a case no theorem relies on.) -/
def winner_fold (s : GState) : List Nat → Int → Option Nat → Option Nat
  | [], _, w => w
  | pid :: rest, max_score, w =>
    let sc := player_score s pid
    if sc > max_score then winner_fold s rest sc (some pid)
    else if sc = max_score then
      match w with
      | none => winner_fold s rest max_score (some pid)
      | some wid =>
        if hand_cost s pid > hand_cost s wid then winner_fold s rest max_score (some pid)
        else if some pid = s.first_finisher then winner_fold s rest max_score (some pid)
        else if (s.first_finisher ≠ some pid ∧ s.first_finisher ≠ some wid) ∧
            moves_of s pid < moves_of s wid then
          winner_fold s rest max_score (some pid)
        else winner_fold s rest max_score w
    else winner_fold s rest max_score w

/-- `_determine_winner()`: run the winner scan over the roster and
record the winner. -/
def determine_winner (s : GState) : Option Nat × GState :=
  let w := winner_fold s s.players (-1) none
  (w, { s with winner := w })

/-- `check_game_over()`: once a first finisher exists the game ends
exactly when the current player is that finisher; otherwise scan for a
newly completed recipe and record the first finisher. -/
def check_game_over (s : GState) : (Bool × Option Nat) × GState :=
  if s.is_game_over then
    let d := determine_winner s
    ((true, d.1), d.2)
  else
    match s.first_finisher with
    | some f =>
      if current_player_id s = f then
        let s1 := { s with is_game_over := true }
        let d := determine_winner s1
        ((true, d.1), d.2)
      else ((false, none), s)
    | none =>
      match s.players.find? (fun p => check_recipe_completion s p) with
      | some p => ((false, none), { s with first_finisher := some p, game_ending := true })
      | none => ((false, none), s)

/-- The handler dispatch of `_process_move` (source lines 270-302): the
action/turn-state if-chain, returning
`((success, error, is_move_continues), state, responses)`.  (The
source's `elif self.game_state in [WAITING_FOR_DEFENSE,
WAITING_FOR_DISCARD]` compares the abstract manager's `game_state`
dict, which is always `{}` for Borsht, so that branch never fires and
the embedding folds it into the final `Invalid action type` branch.) -/
def dispatch_move (env : Env) (s0 : GState) (pid : Nat) (m : MoveData) (action : String)
    (resps : List PlayerResponse) : (Bool × Option String × Bool) × GState × List PlayerResponse :=
  if action = "add_ingredient" ∧ s0.turn_state = GameState.normal_turn then
    let h := handle_add_ingredient s0 pid m.card_id
    ((h.1.1, h.1.2, false), h.2, resps)
  else if action = "draw_cards" ∧ s0.turn_state = GameState.normal_turn then
    let h := handle_draw_cards env s0 pid
    ((h.1.1, h.1.2, false), h.2, resps)
  else if action = "play_special" ∧ s0.turn_state = GameState.normal_turn then
    handle_special_ingredient env s0 pid m resps
  else if action = "exchange_ingredients" ∧
      (s0.turn_state = GameState.normal_turn ∨
       s0.turn_state = GameState.waiting_for_exchange) then
    let h := handle_exchange env s0 pid m.hand_cards m.market_cards resps
    ((h.1.1, h.1.2, false), h.2.1, h.2.2)
  else if action = "skip" ∧ s0.turn_state = GameState.waiting_for_exchange then
    ((true, none, false), s0, resps)
  else if action = "free_market_refresh" then
    let h := handle_free_market_refresh env s0
    ((h.1.1, h.1.2, true), h.2, resps)
  else ((false, some "Invalid action type", true), s0, resps)

/-- The post-move epilogue of `_process_move` (source lines 304-346): on a
non-continuing move, enforce the hand limit, process pending shkvarkas,
record a newly completed recipe, and on success advance the turn and run
the game-over check. -/
def finish_move (env : Env) (s1 : GState) (pid : Nat) (success : Bool) (err : Option String)
    (resps : List PlayerResponse) : (Bool × Option String × Bool) × GState × List PlayerResponse :=
  let hl := handle_hand_limit env s1 pid resps
  let s2 := if hl.1.1 then set_hand hl.2.1 pid hl.1.2 else hl.2.1
  let ps := process_shkvarkas env s2 hl.2.2
  let s3 := ps.1
  let completed := check_recipe_completion s3 pid
  let s4 := if completed ∧ s3.first_finisher = none then
      push_msg { s3 with first_finisher := some pid, game_ending := true } "recipe_completed"
    else s3
  if success ∧ ¬ s4.is_game_over then
    let s5 := { (next_player s4) with turn_state := GameState.normal_turn }
    let cg := check_game_over s5
    let s6 := { cg.2 with is_game_over := cg.1.1, winner := cg.1.2 }
    let s7 := push_msg s6 "new_turn"
    ((success, err, s7.is_game_over), s7, ps.2)
  else
    ((success, err, s4.is_game_over), s4, ps.2)

/-- `_process_move(player_id, move_data)`: the move router.  Pre-dispatch
rejections return before any mutation; the move counter is incremented
before dispatch; on a successful non-continuing move the hand limit,
pending shkvarkas, recipe completion, turn advance and game-over check
run in source order. -/
def process_move (env : Env) (s : GState) (pid : Nat) (m : MoveData)
    (resps : List PlayerResponse) : (Bool × Option String × Bool) × GState × List PlayerResponse :=
  if pid ≠ current_player_id s then
    ((false, some "Not your turn", s.is_game_over), s, resps)
  else if s.is_game_over then
    ((false, some "Game is already over", s.is_game_over), s, resps)
  else if (match s.first_finisher with
      | some f => decide (m.target_player = some f)
      | none => false) = true then
    ((false, some "Cannot target a player who has completed their recipe", s.is_game_over), s, resps)
  else
    match m.action with
    | none => ((false, some "Invalid move data, action required", s.is_game_over), s, resps)
    | some action =>
      let s0 := { s with moves_count := setKey s.moves_count pid (moves_of s pid + 1) }
      let dr := dispatch_move env s0 pid m action resps
      let success := dr.1.1
      let err := dr.1.2.1
      let continues := dr.1.2.2
      if continues then
        let ps := process_shkvarkas env dr.2.1 dr.2.2
        ((success, err, ps.1.is_game_over), ps.1, ps.2)
      else
        finish_move env dr.2.1 pid success err dr.2.2

/-- The snapshot produced by `BorshtManager.dump()` (merged with
`AbstractGameManager.dump()`); the fields the embedding tracks. -/
structure SavedState where
  settings : Settings
  turn_state : GameState
  market : List Card
  deck : List Card
  discard_pile : List Card
  pending_shkvarkas : List Card
  recipes_revealed : Bool
  game_ending : Bool
  first_finisher : Option Nat
  active_shkvarkas : List Card
  recipes : List Recipe
  player_recipes : List (Nat × Recipe)
  player_borsht : List (Nat × List Card)
  player_hands : List (Nat × List Card)
  moves_count : List (Nat × Nat)
  current_player_index : Nat
  is_game_over : Bool
  winner : Option Nat
  game_messages : List String
deriving DecidableEq

/-- `BorshtManager.dump()`. -/
def borsht_dump (s : GState) : SavedState :=
  { settings := s.settings
    turn_state := s.turn_state
    market := s.market
    deck := s.deck
    discard_pile := s.discard_pile
    pending_shkvarkas := s.pending_shkvarkas
    recipes_revealed := s.recipes_revealed
    game_ending := s.game_ending
    first_finisher := s.first_finisher
    active_shkvarkas := s.active_shkvarkas
    recipes := s.recipes
    player_recipes := s.player_recipes
    player_borsht := s.player_borsht
    player_hands := s.player_hands
    moves_count := s.moves_count
    current_player_index := s.current_player_index
    is_game_over := s.is_game_over
    winner := s.winner
    game_messages := s.game_messages }

/-- `BorshtManager.load(db, room, connection_manager, saved_state)`.
The constructor call rebuilds settings (with
`GameSettings.__init__` overwriting `market_base_capacity` with
`market_capacity`) and gives the base attributes their constructor
defaults.  `super(BorshtManager, cls).load(...)` creates and restores a
second instance whose return value the method discards, so
`current_player_index`, `is_game_over`, `winner` and `game_messages`
keep the constructor defaults on the instance that is returned; only
the Borsht-specific attributes are restored onto it. -/
def borsht_load (roster : List Nat) (sv : SavedState) : GState :=
  { players := roster
    current_player_index := 0
    is_game_over := false
    winner := none
    turn_state := sv.turn_state
    deck := sv.deck
    market := sv.market
    discard_pile := sv.discard_pile
    pending_shkvarkas := sv.pending_shkvarkas
    recipes_revealed := sv.recipes_revealed
    game_ending := sv.game_ending
    first_finisher := sv.first_finisher
    active_shkvarkas := sv.active_shkvarkas
    recipes := sv.recipes
    player_recipes := sv.player_recipes
    player_borsht := sv.player_borsht
    player_hands := sv.player_hands
    moves_count := sv.moves_count
    game_messages := []
    settings := { sv.settings with market_base_capacity := sv.settings.market_capacity } }

/-- `BorshtManager.__init__(db, room, connection_manager, game_settings)`
restricted to its observable outcome: a `ValueError` for rosters
outside 2..5 players, otherwise a fresh pre-deal session with the
constructor defaults. -/
def borsht_init (roster : List Nat) (settings : Settings) : Except String GState :=
  if roster.length < 2 ∨ roster.length > 5 then
    Except.error "Borsht requires 2-5 players"
  else Except.ok
    { players := roster
      current_player_index := 0
      is_game_over := false
      winner := none
      turn_state := GameState.normal_turn
      deck := []
      market := []
      discard_pile := []
      pending_shkvarkas := []
      recipes_revealed := false
      game_ending := false
      first_finisher := none
      active_shkvarkas := []
      recipes := []
      player_hands := []
      player_borsht := []
      player_recipes := []
      moves_count := roster.map (fun p => (p, 0))
      game_messages := []
      settings := { settings with market_base_capacity := settings.market_capacity } }

/-- The card-conservation quantity of the specification:
`|deck| + |market| + |discard| + Σ|hands| + Σ|tableaus|`. -/
def total_cards (s : GState) : Nat :=
  s.deck.length + s.market.length + s.discard_pile.length +
    (s.player_hands.map (fun p => p.2.length)).sum +
    (s.player_borsht.map (fun p => p.2.length)).sum

/-! ### Concrete fixtures used by the witnesses and counterexamples -/

/-- A deterministic environment: `sample n k` returns the first `k`
indices, `randint` returns 0, `shuffle` keeps order. -/
def env0 : Env :=
  { sample := fun _ k => List.range k
    randint := fun _ => 0
    shuffle := fun l => l }

/-- A regular zero-point ingredient card with the given uid. -/
def reg (u : Nat) : Card :=
  { uid := u, id := "potato", type := "regular", cost := 1, points := 0 }

/-- A recipe that no small borsht completes (five ingredients, first
bonus level at five). -/
def big_recipe : Recipe :=
  { rid := "test", ingredients := ["w1", "w2", "w3", "w4", "w5"], levels := [(5, 4)] }

/-- A blank two-player session in a normal turn. -/
def base2 : GState :=
  { players := [1, 2]
    current_player_index := 0
    is_game_over := false
    winner := none
    turn_state := GameState.normal_turn
    deck := []
    market := []
    discard_pile := []
    pending_shkvarkas := []
    recipes_revealed := false
    game_ending := false
    first_finisher := none
    active_shkvarkas := []
    recipes := []
    player_hands := [(1, []), (2, [])]
    player_borsht := [(1, []), (2, [])]
    player_recipes := [(1, big_recipe), (2, big_recipe)]
    moves_count := [(1, 0), (2, 0)]
    game_messages := []
    settings := {} }

/-- C1 fixture: six-card deck, both hands empty. -/
def c1s : GState := { base2 with deck := [reg 1, reg 2, reg 3, reg 4, reg 5, reg 6] }

/-- C2 fixture: the blank session (no pending shkvarkas). -/
def c2s : GState := base2

/-- C5 fixture: a mid-game session whose base attributes are not the
constructor defaults. -/
def c5s : GState :=
  { base2 with current_player_index := 1
               moves_count := [(1, 3), (2, 2)]
               game_messages := ["new_turn"] }

/-- C6 fixture: player 1 holds nine cards, one over the default hand
limit of eight. -/
def c6s : GState :=
  { base2 with player_hands :=
      [(1, [reg 11, reg 12, reg 13, reg 14, reg 15, reg 16, reg 17, reg 18, reg 19]), (2, [])] }

def c7a : Card := { uid := 31, id := "beet", type := "regular", cost := 2, points := 1 }

def c7b : Card := { uid := 32, id := "carrot", type := "regular", cost := 2, points := 0 }

def c7c : Card := { uid := 33, id := "onion", type := "regular", cost := 1, points := 1 }

def c7cards : List Card := [c7a, c7b, c7c]

def c4_point_card : Card :=
  { uid := 21, id := "sweet_pepper", type := "regular", cost := 2, points := 2 }

def c4_hand_rich : Card := { uid := 22, id := "honey", type := "extra", cost := 10, points := 4 }

def c4_hand_poor : Card := { uid := 23, id := "salt", type := "extra", cost := 1, points := 2 }

/-- C4 fixture: equal final scores (player 2's first-finisher bonus
offsets player 1's borsht points), player 1's hand strictly costlier. -/
def c4s : GState :=
  { base2 with first_finisher := some 2
               player_borsht := [(1, [c4_point_card]), (2, [])]
               player_hands := [(1, [c4_hand_rich]), (2, [c4_hand_poor])] }

/-- The zgorila-zasmazhka shkvarka card. -/
def zgorila_card : Card :=
  { uid := 90, id := "zgorila_zasmazhka", type := "shkvarka", cost := 0, points := 0,
    subtype := "disposable" }

def onion_card : Card :=
  { uid := 91, id := "onion", type := "regular", cost := 1, points := 1 }

/-- C8 fixture: three players, player 3 is the first finisher and has
an onion in their borsht; the deck starts with the zgorila shkvarka. -/
def c8s : GState :=
  { players := [1, 2, 3]
    current_player_index := 0
    is_game_over := false
    winner := none
    turn_state := GameState.normal_turn
    deck := [zgorila_card, reg 95, reg 96]
    market := []
    discard_pile := []
    pending_shkvarkas := []
    recipes_revealed := false
    game_ending := true
    first_finisher := some 3
    active_shkvarkas := []
    recipes := []
    player_hands := [(1, []), (2, []), (3, [])]
    player_borsht := [(1, []), (2, []), (3, [onion_card])]
    player_recipes := [(1, big_recipe), (2, big_recipe), (3, big_recipe)]
    moves_count := [(1, 0), (2, 0), (3, 0)]
    game_messages := []
    settings := {} }

def c9a : Card := { uid := 41, id := "beet", type := "regular", cost := 3, points := 1 }

def c9b : Card := { uid := 42, id := "potato", type := "regular", cost := 1, points := 0 }

def c9m : Card := { uid := 43, id := "eggs", type := "rare", cost := 4, points := 3 }

/-- C9 fixture: hand `[c9a, c9b]`, market `[c9m]`, no tax. -/
def c9s : GState :=
  { base2 with player_hands := [(1, [c9a, c9b]), (2, [])]
               market := [c9m] }

/-- C3 fixture: the blank two-player session with player 1 recorded as
first finisher. -/
def c3s : GState := { base2 with first_finisher := some 1 }

/-- Well-behavedness of the embedded `random.sample(population, k)`: for
`0 < k < n` it returns `k` distinct indices below `n`.  (Uniformity of
the choice is a property of Python's library, not of the code under
embedding.) -/
def sample_valid (env : Env) : Prop :=
  ∀ n k : Nat, 0 < k → k < n →
    (env.sample n k).length = k ∧ (env.sample n k).Nodup ∧ ∀ i ∈ env.sample n k, i < n

/-- Total cost the exchange validation attributes to a uid list: each
listed uid is priced by its first match in `l` (0 when absent), the way
`_handle_exchange` prices `hand_cards` and `market_cards` against the
unmodified containers. -/
def uid_cost (l : List Card) (us : List Nat) : Int :=
  (us.map (fun u => ((find_card l u).map (fun ic => ic.2.cost)).getD 0)).sum

/-- The pre-dispatch attributes of the session that `_process_move`
consults before running a handler: roster, turn index, game-over flag
and first finisher.  Handlers never touch them. -/
def core_eq (s t : GState) : Prop :=
  t.players = s.players ∧ t.current_player_index = s.current_player_index ∧
  t.is_game_over = s.is_game_over ∧ t.first_finisher = s.first_finisher

/-! ### List-level helper lemmas -/

theorem cons_eraseIdx_perm {l : List Card} {i : Nat} {c : Card} (h : l[i]? = some c) :
    List.Perm (c :: l.eraseIdx i) l := by
  have hi : i < l.length := by
    by_contra hn
    rw [List.getElem?_eq_none (by omega)] at h
    exact Option.noConfusion h
  have hc : l[i] = c := by
    have h2 := List.getElem?_eq_getElem hi
    rw [h2] at h
    exact Option.some.inj h
  have step2 : l.take i ++ c :: l.drop (i + 1) = l := by
    rw [← hc, ← List.drop_eq_getElem_cons hi, List.take_append_drop]
  have step1 : List.Perm (c :: (l.take i ++ l.drop (i + 1))) (l.take i ++ c :: l.drop (i + 1)) :=
    List.perm_middle.symm
  rw [List.eraseIdx_eq_take_drop_succ]
  rw [step2] at step1
  exact step1

theorem eraseIdx_getElem_lt (l : List Card) (i j : Nat) (h : j < i) :
    (l.eraseIdx i)[j]? = l[j]? := by
  rw [List.eraseIdx_eq_take_drop_succ]
  rcases Nat.lt_or_ge j (l.take i).length with hj | hj
  · rw [List.getElem?_append, if_pos hj]
    rw [List.length_take] at hj
    rw [List.getElem?_take_of_lt (by omega)]
  · rw [List.length_take] at hj
    rw [List.getElem?_eq_none (l := l) (by omega), List.getElem?_eq_none]
    simp only [List.length_append, List.length_take, List.length_drop]
    omega

theorem pop_indices_perm : ∀ (idxs : List Nat) (cards : List Card),
    List.Perm ((pop_indices cards idxs).1 ++ (pop_indices cards idxs).2) cards := by
  intro idxs
  induction idxs with
  | nil => intro cards; simp [pop_indices]
  | cons i rest ih =>
    intro cards
    unfold pop_indices
    cases h : cards[i]? with
    | none => simpa using ih cards
    | some c =>
      dsimp only
      exact List.perm_middle.trans (((ih (cards.eraseIdx i)).cons c).trans (cons_eraseIdx_perm h))

theorem pop_indices_desc : ∀ (idxs : List Nat) (cards : List Card),
    idxs.Pairwise (fun a b => b < a) → (∀ i ∈ idxs, i < cards.length) →
    (pop_indices cards idxs).2 = idxs.map (fun i => (cards[i]?).getD default) := by
  intro idxs
  induction idxs with
  | nil => intro cards _ _; rfl
  | cons i rest ih =>
    intro cards hp hv
    have hi : i < cards.length := hv i (by simp)
    have hc : ∃ c, cards[i]? = some c := by
      rw [List.getElem?_eq_getElem hi]; exact ⟨_, rfl⟩
    obtain ⟨c, hc⟩ := hc
    unfold pop_indices
    rw [hc]
    dsimp only
    have hhead : ∀ j ∈ rest, j < i := fun j hj => (List.pairwise_cons.mp hp).1 j hj
    have htail : rest.Pairwise (fun a b => b < a) := (List.pairwise_cons.mp hp).2
    have hv2 : ∀ j ∈ rest, j < (cards.eraseIdx i).length := by
      intro j hj
      rw [List.length_eraseIdx_of_lt hi]
      have := hhead j hj
      omega
    rw [ih (cards.eraseIdx i) htail hv2]
    simp only [List.map_cons, hc, Option.getD_some]
    congr 1
    apply List.map_congr_left
    intro j hj
    rw [eraseIdx_getElem_lt cards i j (hhead j hj)]

theorem find_card_spec : ∀ (l : List Card) (u i : Nat) (c : Card),
    find_card l u = some (i, c) → l[i]? = some c ∧ c.uid = u := by
  intro l
  induction l with
  | nil => intro u i c h; exact absurd h (by simp [find_card])
  | cons a as ih =>
    intro u i c h
    unfold find_card at h
    by_cases ha : a.uid = u
    · rw [if_pos ha] at h
      have h1 := Option.some.inj h
      have hi0 : i = 0 := ((Prod.mk.injEq _ _ _ _).mp h1).1.symm
      have hca : c = a := ((Prod.mk.injEq _ _ _ _).mp h1).2.symm
      subst hi0; subst hca
      exact ⟨by simp, ha⟩
    · rw [if_neg ha] at h
      cases hf : find_card as u with
      | none => rw [hf] at h; simp at h
      | some p =>
        rw [hf] at h
        simp only [Option.map_some'] at h
        have h1 := Option.some.inj h
        have hi : p.1 + 1 = i := ((Prod.mk.injEq _ _ _ _).mp h1).1
        have hc : p.2 = c := ((Prod.mk.injEq _ _ _ _).mp h1).2
        obtain ⟨hget, huid⟩ := ih u p.1 p.2 (by rw [hf])
        subst hc
        rw [← hi]
        exact ⟨by simpa using hget, huid⟩

theorem find_card_none : ∀ (l : List Card) (u : Nat),
    find_card l u = none ↔ ∀ c ∈ l, c.uid ≠ u := by
  intro l
  induction l with
  | nil => intro u; simp [find_card]
  | cons a as ih =>
    intro u
    unfold find_card
    by_cases ha : a.uid = u
    · rw [if_pos ha]
      simp [ha]
    · rw [if_neg ha]
      rw [Option.map_eq_none']
      rw [ih u]
      constructor
      · intro h c hc
        rcases List.mem_cons.mp hc with h1 | h1
        · subst h1; exact ha
        · exact h c h1
      · intro h c hc
        exact h c (List.mem_cons_of_mem a hc)

theorem take_by_uids_spec : ∀ (us : List Nat) (cards upd disc : List Card),
    take_by_uids cards us = some (upd, disc) →
    List.Perm (upd ++ disc) cards ∧ disc.length = us.length := by
  intro us
  induction us with
  | nil =>
    intro cards upd disc h
    unfold take_by_uids at h
    have h1 := Option.some.inj h
    have hu : cards = upd := ((Prod.mk.injEq _ _ _ _).mp h1).1
    have hd : ([] : List Card) = disc := ((Prod.mk.injEq _ _ _ _).mp h1).2
    subst hu
    rw [← hd]
    simp
  | cons u rest ih =>
    intro cards upd disc h
    unfold take_by_uids at h
    split at h
    · exact absurd h (by simp)
    · rename_i i c hf
      split at h
      · exact absurd h (by simp)
      · rename_i upd2 disc2 ht
        have h1 := Option.some.inj h
        have hu : upd2 = upd := ((Prod.mk.injEq _ _ _ _).mp h1).1
        have hd : c :: disc2 = disc := ((Prod.mk.injEq _ _ _ _).mp h1).2
        have hget := (find_card_spec cards u i c hf).1
        obtain ⟨hperm, hlen⟩ := ih (cards.eraseIdx i) upd2 disc2 ht
        subst hu
        rw [← hd]
        constructor
        · exact List.perm_middle.trans ((hperm.cons c).trans (cons_eraseIdx_perm hget))
        · simp [hlen]

theorem sort_desc_perm (l : List Nat) : List.Perm (sort_desc l) l :=
  List.perm_insertionSort _ l

theorem sort_desc_strict (l : List Nat) (h : l.Nodup) :
    (sort_desc l).Pairwise (fun a b => b < a) := by
  have hp : List.Perm (sort_desc l) l := sort_desc_perm l
  have hnd : (sort_desc l).Nodup := hp.nodup_iff.mpr h
  have hs : (sort_desc l).Pairwise (fun a b => b ≤ a) := List.sorted_insertionSort _ l
  exact (hs.and hnd).imp (fun hab => lt_of_le_of_ne hab.1 (Ne.symm hab.2))

theorem csr_basic (env : Env) : ∀ (resps : List PlayerResponse) (s : GState)
    (cards : List Card) (k : Int),
    (cards_selection_request env s cards k resps).1.1 = true ∧
    List.Perm ((cards_selection_request env s cards k resps).1.2.1 ++
      (cards_selection_request env s cards k resps).1.2.2) cards ∧
    (cards_selection_request env s cards k resps).2.1.turn_state = s.turn_state := by
  intro resps
  induction resps with
  | nil =>
    intro s cards k
    unfold cards_selection_request
    split
    · exact ⟨rfl, by simp, rfl⟩
    · split
      · exact ⟨rfl, by simp, rfl⟩
      · exact ⟨rfl, pop_indices_perm _ _, rfl⟩
  | cons r rest ih =>
    intro s cards k
    unfold cards_selection_request
    split
    · exact ⟨rfl, by simp, rfl⟩
    · split
      · exact ⟨rfl, by simp, rfl⟩
      · cases r with
        | timeout => exact ⟨rfl, pop_indices_perm _ _, rfl⟩
        | defense b => exact ih _ _ _
        | select rs uids =>
          cases rs with
          | true => exact ⟨rfl, pop_indices_perm _ _, rfl⟩
          | false =>
            dsimp only
            split
            · exact ih _ _ _
            · split
              · rename_i upd disc ht
                exact ⟨rfl, (take_by_uids_spec uids cards upd disc ht).1, rfl⟩
              · exact ih _ _ _

theorem csr_random_len (env : Env) (hs : sample_valid env) (cards : List Card) (k : Int)
    (hk : 0 < k) (hn : k < (cards.length : Int)) :
    ((pop_indices cards (sort_desc (env.sample cards.length k.toNat))).2).length = k.toNat := by
  have hk2 : 0 < k.toNat := by omega
  have hn2 : k.toNat < cards.length := by omega
  obtain ⟨hlen, hnd, hval⟩ := hs cards.length k.toNat hk2 hn2
  have hperm := sort_desc_perm (env.sample cards.length k.toNat)
  have hstrict := sort_desc_strict _ hnd
  have hval2 : ∀ i ∈ sort_desc (env.sample cards.length k.toNat), i < cards.length :=
    fun i hi => hval i (hperm.mem_iff.mp hi)
  rw [pop_indices_desc _ _ hstrict hval2]
  rw [List.length_map, hperm.length_eq, hlen]

theorem csr_len (env : Env) (hs : sample_valid env) :
    ∀ (resps : List PlayerResponse) (s : GState) (cards : List Card) (k : Int),
    0 < k → k < (cards.length : Int) →
    ((cards_selection_request env s cards k resps).1.2.2).length = k.toNat := by
  intro resps
  induction resps with
  | nil =>
    intro s cards k hk hn
    unfold cards_selection_request
    rw [if_neg (by omega), if_neg (by omega)]
    exact csr_random_len env hs cards k hk hn
  | cons r rest ih =>
    intro s cards k hk hn
    unfold cards_selection_request
    rw [if_neg (by omega), if_neg (by omega)]
    cases r with
    | timeout => exact csr_random_len env hs cards k hk hn
    | defense b => exact ih _ _ _ hk hn
    | select rs uids =>
      cases rs with
      | true => exact csr_random_len env hs cards k hk hn
      | false =>
        dsimp only
        split
        · exact ih _ _ _ hk hn
        · rename_i hlen
          split
          · rename_i upd disc ht
            have := (take_by_uids_spec uids cards upd disc ht).2
            dsimp only
            omega
          · exact ih _ _ _ hk hn

theorem defense_turn_state (env : Env) (s : GState) (target : Nat)
    (resps : List PlayerResponse) :
    (check_sour_cream_defense env s target resps).2.1.turn_state = s.turn_state := by
  unfold check_sour_cream_defense
  dsimp only
  split
  · rfl
  · split
    · rfl
    · rfl

theorem shkvarka_wrapper_turn_state (env : Env) (s : GState) (card : Card)
    (resps : List PlayerResponse) :
    (handle_shkvarka env s card resps).1.turn_state = s.turn_state := by
  unfold handle_shkvarka
  by_cases h : card.subtype = "permanent" <;> simp [h, push_msg]

theorem getElem_some_lt {l : List Card} {i : Nat} {c : Card} (h : l[i]? = some c) :
    i < l.length := by
  by_contra hn
  rw [List.getElem?_eq_none (by omega)] at h
  exact Option.noConfusion h

theorem collect_cards_spec : ∀ (us : List Nat) (l : List Card) (objs : List (Nat × Card)),
    collect_cards l us = some objs →
    objs.length = us.length ∧
    (∀ p ∈ objs, l[p.1]? = some p.2) ∧
    objs.map (fun p => p.2.uid) = us ∧
    (objs.map (fun p => p.2.cost)).sum = uid_cost l us := by
  intro us
  induction us with
  | nil =>
    intro l objs h
    unfold collect_cards at h
    have h1 := Option.some.inj h
    subst h1
    exact ⟨rfl, by simp, rfl, rfl⟩
  | cons u rest ih =>
    intro l objs h
    unfold collect_cards at h
    split at h
    · exact absurd h (by simp)
    · rename_i ic hf
      cases hcol : collect_cards l rest with
      | none => rw [hcol] at h; exact absurd h (by simp)
      | some os =>
        rw [hcol] at h
        simp only [Option.map_some'] at h
        have h1 := Option.some.inj h
        subst h1
        obtain ⟨hlen, hget, huids, hcost⟩ := ih l os hcol
        obtain ⟨hg, hu⟩ := find_card_spec l u ic.1 ic.2 hf
        refine ⟨by simp [hlen], ?_, ?_, ?_⟩
        · intro p hp
          rcases List.mem_cons.mp hp with h2 | h2
          · subst h2; exact hg
          · exact hget p h2
        · simp [hu, huids]
        · unfold uid_cost
          simp only [List.map_cons, List.sum_cons, hf, Option.map_some', Option.getD_some]
          rw [hcost]
          rfl

theorem collect_cards_isSome : ∀ (us : List Nat) (l : List Card),
    (collect_cards l us).isSome = true ↔ ∀ u ∈ us, u ∈ l.map Card.uid := by
  intro us
  induction us with
  | nil => intro l; simp [collect_cards]
  | cons u rest ih =>
    intro l
    unfold collect_cards
    cases hf : find_card l u with
    | none =>
      simp only [Option.isSome_none]
      constructor
      · intro h; exact absurd h (by simp)
      · intro h
        have hu := h u (by simp)
        obtain ⟨c, hc, hcu⟩ := List.mem_map.mp hu
        exact absurd hcu (((find_card_none l u).mp hf) c hc)
    | some ic =>
      cases hcol : collect_cards l rest with
      | none =>
        simp only [Option.map_none', Option.isSome_none]
        constructor
        · intro h; exact absurd h (by simp)
        · intro h
          have := (ih l).mpr (fun v hv => h v (List.mem_cons_of_mem u hv))
          rw [hcol] at this
          exact absurd this (by simp)
      | some os =>
        simp only [Option.map_some', Option.isSome_some, true_iff]
        intro v hv
        rcases List.mem_cons.mp hv with h1 | h1
        · subst h1
          obtain ⟨hg, hu⟩ := find_card_spec l v ic.1 ic.2 hf
          exact List.mem_map.mpr ⟨ic.2, List.getElem?_mem hg, hu⟩
        · have := (ih l).mp (by rw [hcol]; rfl)
          exact this v h1

theorem remove_indices_eq_pop : ∀ (idxs : List Nat) (l : List Card),
    remove_indices l idxs = (pop_indices l idxs).1 := by
  intro idxs
  induction idxs with
  | nil => intro l; rfl
  | cons i rest ih =>
    intro l
    unfold remove_indices pop_indices
    cases h : l[i]? with
    | none =>
      have : l.eraseIdx i = l := List.eraseIdx_eq_self.mpr (by
        by_contra hn
        push_neg at hn
        rw [List.getElem?_eq_getElem hn] at h
        exact Option.noConfusion h)
      rw [this]
      exact ih l
    | some c => exact ih (l.eraseIdx i)

theorem collect_fst_nodup (us : List Nat) (l : List Card) (objs : List (Nat × Card))
    (hus : us.Nodup) (h : collect_cards l us = some objs) :
    (objs.map Prod.fst).Nodup := by
  obtain ⟨_, hget, huids, _⟩ := collect_cards_spec us l objs h
  have hnd : (objs.map (fun p => p.2.uid)).Nodup := huids ▸ hus
  have hpw : objs.Pairwise (fun p q => p.2.uid ≠ q.2.uid) := List.pairwise_map.mp hnd
  have goal2 : objs.Pairwise (fun p q => p.1 ≠ q.1) := by
    rw [List.pairwise_iff_forall_sublist] at hpw ⊢
    intro a b hab
    have hm := hab.subset
    have ha : a ∈ objs := hm (by simp)
    have hb : b ∈ objs := hm (by simp)
    intro heq
    apply hpw hab
    have h1 := hget a ha
    have h2 := hget b hb
    rw [heq] at h1
    rw [h1] at h2
    rw [Option.some.inj h2]
  exact List.pairwise_map.mpr goal2

theorem remove_collected_perm (us : List Nat) (l : List Card) (objs : List (Nat × Card))
    (hus : us.Nodup) (h : collect_cards l us = some objs) :
    List.Perm (remove_indices l (sort_desc (objs.map Prod.fst)) ++ objs.map Prod.snd) l := by
  obtain ⟨_, hget, _, _⟩ := collect_cards_spec us l objs h
  have hndidx : (objs.map Prod.fst).Nodup := collect_fst_nodup us l objs hus h
  have hval : ∀ i ∈ sort_desc (objs.map Prod.fst), i < l.length := by
    intro i hi
    have hi2 : i ∈ objs.map Prod.fst := (sort_desc_perm _).mem_iff.mp hi
    obtain ⟨p, hp, hpi⟩ := List.mem_map.mp hi2
    have := hget p hp
    subst hpi
    exact getElem_some_lt this
  have hdesc := sort_desc_strict _ hndidx
  have hpop2 : (pop_indices l (sort_desc (objs.map Prod.fst))).2 =
      (sort_desc (objs.map Prod.fst)).map (fun i => (l[i]?).getD default) :=
    pop_indices_desc _ _ hdesc hval
  have hmap1 : List.Perm ((sort_desc (objs.map Prod.fst)).map (fun i => (l[i]?).getD default))
      ((objs.map Prod.fst).map (fun i => (l[i]?).getD default)) :=
    (sort_desc_perm _).map _
  have hmap2 : (objs.map Prod.fst).map (fun i => (l[i]?).getD default) = objs.map Prod.snd := by
    rw [List.map_map]
    apply List.map_congr_left
    intro p hp
    simp only [Function.comp_apply]
    rw [hget p hp]
    rfl
  have hperm2 : List.Perm (objs.map Prod.snd) (pop_indices l (sort_desc (objs.map Prod.fst))).2 := by
    rw [hpop2, ← hmap2]
    exact hmap1.symm
  rw [remove_indices_eq_pop]
  exact ((List.Perm.append_left _ hperm2).trans (pop_indices_perm _ _))

theorem lookupD_setKey_mem {α : Type} [Inhabited α] (m : List (Nat × α)) (k : Nat) (v : α)
    (h : k ∈ m.map Prod.fst) : lookupD (setKey m k v) k = v := by
  induction m with
  | nil => simp at h
  | cons p rest ih =>
    by_cases hp : p.1 = k
    · unfold setKey lookupD
      simp only [List.map_cons, hp, if_pos]
      rw [List.find?_cons_of_pos _ (by simp)]
    · unfold setKey lookupD
      simp only [List.map_cons, if_neg hp]
      rw [List.find?_cons_of_neg _ (by simp [hp])]
      have hk : k ∈ rest.map Prod.fst := by
        rw [List.map_cons, List.mem_cons] at h
        rcases h with h1 | h1
        · exact absurd h1.symm hp
        · exact h1
      exact ih hk

theorem core_eq_refl (s : GState) : core_eq s s := ⟨rfl, rfl, rfl, rfl⟩

theorem core_eq_trans {s t u : GState} (h1 : core_eq s t) (h2 : core_eq t u) : core_eq s u :=
  ⟨h2.1.trans h1.1, h2.2.1.trans h1.2.1, h2.2.2.1.trans h1.2.2.1, h2.2.2.2.trans h1.2.2.2⟩

theorem foldl_core {β : Type} (f : GState → β → GState)
    (h : ∀ st b, core_eq st (f st b)) : ∀ (l : List β) (st : GState),
    core_eq st (List.foldl f st l) := by
  intro l
  induction l with
  | nil => intro st; exact core_eq_refl st
  | cons b rest ih => intro st; exact core_eq_trans (h st b) (ih (f st b))

theorem get_cards_core (env : Env) (c : Int) (s : GState) :
    core_eq s (get_cards_from_deck env c s).2 := ⟨rfl, rfl, rfl, rfl⟩

theorem csr_state (env : Env) : ∀ (resps : List PlayerResponse) (s : GState)
    (cards : List Card) (k : Int),
    (cards_selection_request env s cards k resps).2.1 = s := by
  intro resps
  induction resps with
  | nil =>
    intro s cards k
    unfold cards_selection_request
    split
    · rfl
    · split <;> rfl
  | cons r rest ih =>
    intro s cards k
    unfold cards_selection_request
    split
    · rfl
    · split
      · rfl
      · cases r with
        | timeout => rfl
        | defense b => exact ih _ _ _
        | select rs uids =>
          cases rs with
          | true => rfl
          | false =>
            dsimp only
            split
            · exact ih _ _ _
            · split
              · rfl
              · exact ih _ _ _

theorem defense_core (env : Env) (s : GState) (target : Nat) (resps : List PlayerResponse) :
    core_eq s (check_sour_cream_defense env s target resps).2.1 := by
  unfold check_sour_cream_defense
  dsimp only
  split
  · exact core_eq_refl s
  · split
    · exact ⟨rfl, rfl, rfl, rfl⟩
    · exact ⟨rfl, rfl, rfl, rfl⟩

theorem hand_limit_core (env : Env) (s : GState) (pid : Nat) (resps : List PlayerResponse) :
    core_eq s (handle_hand_limit env s pid resps).2.1 := by
  unfold handle_hand_limit
  split
  · exact core_eq_refl s
  · dsimp only
    split
    · exact core_eq_refl s
    · rw [csr_state]
      exact ⟨rfl, rfl, rfl, rfl⟩

theorem market_refill_core (env : Env) (s : GState) :
    core_eq s (handle_market_refill env s) := ⟨rfl, rfl, rfl, rfl⟩

theorem market_refresh_core (env : Env) (s : GState) (cd : Option (List Card)) :
    core_eq s (handle_market_refresh env s cd) := ⟨rfl, rfl, rfl, rfl⟩

theorem market_limit_core (env : Env) (s : GState) (resps : List PlayerResponse) :
    core_eq s (handle_market_limit env s resps).1 := by
  unfold handle_market_limit
  dsimp only
  split
  · split
    · rw [csr_state]
      exact ⟨rfl, rfl, rfl, rfl⟩
    · exact market_refill_core env s
  · split
    · rw [csr_state]
      exact ⟨rfl, rfl, rfl, rfl⟩
    · exact core_eq_refl s

theorem add_ingredient_core (s : GState) (pid : Nat) (cid : Option Nat) :
    core_eq s (handle_add_ingredient s pid cid).2 := by
  unfold handle_add_ingredient
  split
  · exact core_eq_refl s
  · split
    · exact core_eq_refl s
    · split
      · exact core_eq_refl s
      · split
        · exact core_eq_refl s
        · split
          · exact core_eq_refl s
          · split
            · exact core_eq_refl s
            · exact ⟨rfl, rfl, rfl, rfl⟩

theorem draw_cards_core (env : Env) (s : GState) (pid : Nat) :
    core_eq s (handle_draw_cards env s pid).2 := by
  unfold handle_draw_cards
  dsimp only
  split
  · exact get_cards_core env s.settings.cards_to_draw s
  · exact ⟨rfl, rfl, rfl, rfl⟩

theorem cinnamon_core (env : Env) (s : GState) (pid : Nat) (resps : List PlayerResponse) :
    core_eq s (handle_cinnamon env s pid resps).2.1 := by
  unfold handle_cinnamon
  split
  · exact core_eq_refl s
  · dsimp only
    rw [csr_state]
    exact ⟨rfl, rfl, rfl, rfl⟩

theorem paprika_core (env : Env) (s : GState) :
    core_eq s (handle_paprika env s).2 := ⟨rfl, rfl, rfl, rfl⟩

theorem olive_oil_core (env : Env) (s : GState) (pid : Nat) (resps : List PlayerResponse) :
    core_eq s (handle_olive_oil env s pid resps).2.1 := by
  unfold handle_olive_oil
  dsimp only
  split
  · exact core_eq_refl s
  · rw [csr_state]
    exact ⟨rfl, rfl, rfl, rfl⟩

theorem ginger_core (env : Env) (s : GState) (pid : Nat) (resps : List PlayerResponse) :
    core_eq s (handle_ginger env s pid resps).2.1 := by
  unfold handle_ginger
  dsimp only
  split
  · exact core_eq_refl s
  · rw [csr_state]
    exact ⟨rfl, rfl, rfl, rfl⟩

theorem chili_apply_core (pid tp : Nat) (steal : Bool) (objs : List (Nat × Card)) (s : GState) :
    core_eq s (chili_apply pid tp steal objs s) := by
  unfold chili_apply
  apply foldl_core
  intro st b
  dsimp only
  split
  · split
    · exact ⟨rfl, rfl, rfl, rfl⟩
    · exact ⟨rfl, rfl, rfl, rfl⟩
  · exact ⟨rfl, rfl, rfl, rfl⟩

theorem chili_core (env : Env) (s : GState) (pid : Nat) (m : MoveData)
    (resps : List PlayerResponse) :
    core_eq s (handle_chili_pepper env s pid m resps).2.1 := by
  unfold handle_chili_pepper
  dsimp only
  repeat' split
  all_goals
    first
    | exact core_eq_refl s
    | exact core_eq_trans (⟨rfl, rfl, rfl, rfl⟩ : core_eq s (push_msg s "special_effect"))
        (defense_core env (push_msg s "special_effect") _ resps)
    | exact core_eq_trans (core_eq_trans
        (⟨rfl, rfl, rfl, rfl⟩ : core_eq s (push_msg s "special_effect"))
        (defense_core env (push_msg s "special_effect") _ resps))
        (core_eq_trans (chili_apply_core pid _ _ _ _) ⟨rfl, rfl, rfl, rfl⟩)

set_option maxHeartbeats 1000000 in
theorem bp_steal_loop_core (env : Env) (pid : Nat) :
    ∀ (ts : List Nat) (s : GState) (resps : List PlayerResponse) (n : Nat),
    core_eq s (black_pepper_steal_loop env pid ts s resps n).1 := by
  intro ts
  induction ts with
  | nil => intro s resps n; exact core_eq_refl s
  | cons t rest ih =>
    intro s resps n
    unfold black_pepper_steal_loop
    dsimp only
    split
    · exact ih s resps n
    · split
      · exact core_eq_trans (defense_core env s t resps) (ih _ _ n)
      · refine core_eq_trans ?_ (ih _ _ (n + 1))
        exact core_eq_trans (defense_core env s t resps) ⟨rfl, rfl, rfl, rfl⟩

set_option maxHeartbeats 1000000 in
theorem bp_discard_loop_core (env : Env) (tmap : List (Nat × Nat)) :
    ∀ (ts : List Nat) (s : GState) (resps : List PlayerResponse) (n : Nat),
    core_eq s (black_pepper_discard_loop env tmap ts s resps n).1 := by
  intro ts
  induction ts with
  | nil => intro s resps n; exact core_eq_refl s
  | cons t rest ih =>
    intro s resps n
    unfold black_pepper_discard_loop
    dsimp only
    split
    · exact ih s resps n
    · split
      · exact ih s resps n
      · split
        · exact ih s resps n
        · split
          · exact core_eq_trans (defense_core env s t resps) (ih _ _ n)
          · split
            · exact core_eq_trans (defense_core env s t resps) (ih _ _ n)
            · refine core_eq_trans ?_ (ih _ _ (n + 1))
              exact core_eq_trans (defense_core env s t resps) ⟨rfl, rfl, rfl, rfl⟩

theorem black_pepper_core (env : Env) (s : GState) (pid : Nat) (m : MoveData)
    (resps : List PlayerResponse) :
    core_eq s (handle_black_pepper env s pid m resps).2.1 := by
  unfold handle_black_pepper
  dsimp only
  repeat' split
  all_goals
    first
    | exact core_eq_refl s
    | exact core_eq_trans (⟨rfl, rfl, rfl, rfl⟩ : core_eq s (push_msg s "special_effect"))
        (bp_steal_loop_core env pid _ (push_msg s "special_effect") resps 0)
    | exact core_eq_trans (⟨rfl, rfl, rfl, rfl⟩ : core_eq s (push_msg s "special_effect"))
        (bp_discard_loop_core env m.target_cards_map _ (push_msg s "special_effect") resps 0)

theorem exchange_core_core (s : GState) (pid : Nat) (hc mc : List Nat) :
    core_eq s (exchange_core s pid hc mc).2 := by
  unfold exchange_core
  dsimp only
  repeat' split
  all_goals
    first
    | exact core_eq_refl s
    | exact ⟨rfl, rfl, rfl, rfl⟩

set_option maxHeartbeats 1000000 in
theorem handle_exchange_core (env : Env) (s : GState) (pid : Nat)
    (hcm mcm : Option (List Nat)) (resps : List PlayerResponse) :
    core_eq s (handle_exchange env s pid hcm mcm resps).2.1 := by
  unfold handle_exchange
  dsimp only
  repeat' split
  all_goals
    first
    | exact core_eq_refl s
    | exact exchange_core_core s pid _ _
    | exact core_eq_trans (exchange_core_core s pid _ _)
        (market_limit_core env (exchange_core s pid _ _).2 resps)

theorem free_refresh_core (env : Env) (s : GState) :
    core_eq s (handle_free_market_refresh env s).2 := by
  unfold handle_free_market_refresh
  split
  · exact market_refresh_core env s none
  · exact core_eq_refl s

set_option maxHeartbeats 1600000 in
theorem special_core (env : Env) (s : GState) (pid : Nat) (m : MoveData)
    (resps : List PlayerResponse) :
    core_eq s (handle_special_ingredient env s pid m resps).2.1 := by
  unfold handle_special_ingredient
  dsimp only
  repeat' split
  all_goals
    first
    | exact core_eq_refl s
    | exact chili_core env s pid m resps
    | exact black_pepper_core env s pid m resps
    | exact ginger_core env s pid resps
    | exact cinnamon_core env s pid resps
    | exact olive_oil_core env s pid resps
    | exact core_eq_trans (chili_core env s pid m resps) ⟨rfl, rfl, rfl, rfl⟩
    | exact core_eq_trans (black_pepper_core env s pid m resps) ⟨rfl, rfl, rfl, rfl⟩
    | exact core_eq_trans (ginger_core env s pid resps) ⟨rfl, rfl, rfl, rfl⟩
    | exact core_eq_trans (cinnamon_core env s pid resps) ⟨rfl, rfl, rfl, rfl⟩
    | exact core_eq_trans (olive_oil_core env s pid resps) ⟨rfl, rfl, rfl, rfl⟩
    | exact core_eq_trans (paprika_core env s) ⟨rfl, rfl, rfl, rfl⟩

theorem discard_selected_core (s : GState) (owner : Nat) (dc : Card) :
    core_eq s (discard_selected_from_borsht s owner dc) := by
  unfold discard_selected_from_borsht
  dsimp only
  split <;> exact ⟨rfl, rfl, rfl, rfl⟩

theorem shk_u_komori_loop_core (env : Env) :
    ∀ (ls : List Nat) (s : GState) (resps : List PlayerResponse),
    core_eq s (shk_u_komori_loop env ls s resps).1 := by
  intro ls
  induction ls with
  | nil => intro s resps; exact core_eq_refl s
  | cons left rest ih =>
    intro s resps
    unfold shk_u_komori_loop
    dsimp only
    rw [csr_state]
    exact core_eq_trans (⟨rfl, rfl, rfl, rfl⟩ : core_eq s _) (ih _ _)

theorem shk_garmyder_core (s : GState) : core_eq s (shk_garmyder s) := by
  unfold shk_garmyder
  dsimp only
  have h1 : ∀ (l : List (Nat × Nat)) (st : GState),
      core_eq st (List.foldl (fun st2 pr => { st2 with
        player_recipes := setKey st2.player_recipes pr.1 (lookupD s.player_recipes pr.2) }) st l) := by
    intro l st
    apply foldl_core
    intro a b
    exact ⟨rfl, rfl, rfl, rfl⟩
  refine core_eq_trans (h1 (s.players.zip (s.players.rotate 1)) s) ?_
  apply foldl_core
  intro st b
  exact ⟨rfl, rfl, rfl, rfl⟩

theorem shk_zazdrisni_core (env : Env) (s : GState) (resps : List PlayerResponse) :
    core_eq s (shk_zazdrisni env s resps).1 := by
  unfold shk_zazdrisni
  dsimp only
  repeat' split
  all_goals
    first
    | exact core_eq_refl s
    | exact ⟨rfl, rfl, rfl, rfl⟩
    | (rw [csr_state]; exact discard_selected_core s _ _)
    | (rw [csr_state]; exact core_eq_refl s)

theorem shk_mityng_loop_core (env : Env) :
    ∀ (ps : List Nat) (s : GState) (resps : List PlayerResponse),
    core_eq s (shk_mityng_loop env ps s resps).1 := by
  intro ps
  induction ps with
  | nil => intro s resps; exact core_eq_refl s
  | cons p rest ih =>
    intro s resps
    unfold shk_mityng_loop
    dsimp only
    split
    · exact ih s resps
    · split
      · rw [csr_state]
        exact core_eq_trans (discard_selected_core s _ _) (ih _ _)
      · rw [csr_state]
        exact ih s _

theorem shk_yarmarok_phase1_core (env : Env) :
    ∀ (ps : List Nat) (s : GState) (resps : List PlayerResponse),
    core_eq s (shk_yarmarok_phase1 env ps s resps).1 := by
  intro ps
  induction ps with
  | nil => intro s resps; exact core_eq_refl s
  | cons p rest ih =>
    intro s resps
    unfold shk_yarmarok_phase1
    dsimp only
    split
    · exact ih s resps
    · split
      · rw [csr_state]
        exact core_eq_trans (⟨rfl, rfl, rfl, rfl⟩ : core_eq s _) (ih _ _)
      · rw [csr_state]
        exact ih s _

theorem shk_yarmarok_core (env : Env) (s : GState) (resps : List PlayerResponse) :
    core_eq s (shk_yarmarok env s resps).1 := by
  unfold shk_yarmarok
  dsimp only
  refine core_eq_trans (shk_yarmarok_phase1_core env s.players s resps) ?_
  apply foldl_core
  intro st b
  dsimp only
  split
  · exact ⟨rfl, rfl, rfl, rfl⟩
  · exact core_eq_refl st

theorem shk_vtratyv_loop_core (env : Env) :
    ∀ (ps : List Nat) (s : GState) (resps : List PlayerResponse),
    core_eq s (shk_vtratyv_loop env ps s resps).1 := by
  intro ps
  induction ps with
  | nil => intro s resps; exact core_eq_refl s
  | cons p rest ih =>
    intro s resps
    unfold shk_vtratyv_loop
    dsimp only
    split
    · exact ih s resps
    · split
      · rw [csr_state]
        exact core_eq_trans (discard_selected_core s _ _) (ih _ _)
      · rw [csr_state]
        exact ih s _

theorem shk_den_loop_core (env : Env) (mids : List String) :
    ∀ (ps : List Nat) (s : GState) (resps : List PlayerResponse),
    core_eq s (shk_den_loop env mids ps s resps).1 := by
  intro ps
  induction ps with
  | nil => intro s resps; exact core_eq_refl s
  | cons p rest ih =>
    intro s resps
    unfold shk_den_loop
    dsimp only
    split
    · exact ih s resps
    · split
      · rw [csr_state]
        exact core_eq_trans (discard_selected_core s _ _) (ih _ _)
      · rw [csr_state]
        exact ih s _

theorem shk_zgorila_core (s : GState) : core_eq s (shk_zgorila s) := by
  unfold shk_zgorila
  apply foldl_core
  intro st b
  dsimp only
  split
  · exact core_eq_refl st
  · exact ⟨rfl, rfl, rfl, rfl⟩

theorem shk_zagubyly_loop_core (env : Env) (mids : List String) :
    ∀ (ps : List Nat) (s : GState) (resps : List PlayerResponse),
    core_eq s (shk_zagubyly_loop env mids ps s resps).1 := by
  intro ps
  induction ps with
  | nil => intro s resps; exact core_eq_refl s
  | cons p rest ih =>
    intro s resps
    unfold shk_zagubyly_loop
    dsimp only
    split
    · exact ih s resps
    · split
      · rw [csr_state]
        exact core_eq_trans (discard_selected_core s _ _) (ih _ _)
      · rw [csr_state]
        exact ih s _

theorem shk_rozsypaly_loop_core (env : Env) :
    ∀ (ps : List Nat) (s : GState) (resps : List PlayerResponse),
    core_eq s (shk_rozsypaly_loop env ps s resps).1 := by
  intro ps
  induction ps with
  | nil => intro s resps; exact core_eq_refl s
  | cons p rest ih =>
    intro s resps
    unfold shk_rozsypaly_loop
    dsimp only
    split
    · exact ih s resps
    · split
      · exact ih s resps
      · split
        · rw [csr_state]
          split
          · exact core_eq_trans (defense_core env s p _) (ih _ _)
          · exact core_eq_trans (defense_core env s p _)
              (core_eq_trans (discard_selected_core _ _ _) (ih _ _))
        · rw [csr_state]
          exact ih s _

theorem shk_postachalnyk_loop_core (env : Env) :
    ∀ (ps : List Nat) (s : GState),
    core_eq s (shk_postachalnyk_loop env ps s) := by
  intro ps
  induction ps with
  | nil => intro s; exact core_eq_refl s
  | cons p rest ih =>
    intro s
    unfold shk_postachalnyk_loop
    dsimp only
    exact core_eq_trans (⟨rfl, rfl, rfl, rfl⟩ : core_eq s _) (ih _)

theorem shk_sanepid_core (env : Env) (s : GState) (resps : List PlayerResponse) :
    core_eq s (shk_sanepid env s resps).1 := by
  unfold shk_sanepid
  exact core_eq_trans (⟨rfl, rfl, rfl, rfl⟩ : core_eq s _) (market_limit_core env _ resps)

theorem shk_porvalas_loop_core (env : Env) :
    ∀ (ps : List Nat) (s : GState) (resps : List PlayerResponse),
    core_eq s (shk_porvalas_loop env ps s resps).1 := by
  intro ps
  induction ps with
  | nil => intro s resps; exact core_eq_refl s
  | cons p rest ih =>
    intro s resps
    unfold shk_porvalas_loop
    dsimp only
    split
    · exact core_eq_trans (core_eq_trans (hand_limit_core env s p resps)
        ⟨rfl, rfl, rfl, rfl⟩) (ih _ _)
    · exact core_eq_trans (hand_limit_core env s p resps) (ih _ _)

theorem shkvarka_dispatch_core (env : Env) (card : Card) (s : GState)
    (resps : List PlayerResponse) :
    core_eq s (shkvarka_dispatch env card s resps).1 := by
  unfold shkvarka_dispatch
  by_cases h0 : card.id = "u_komori_myshi"
  · rw [if_pos h0]
    exact shk_u_komori_loop_core env _ s resps
  rw [if_neg h0]
  by_cases h1 : card.id = "garmyder_na_kuhni"
  · rw [if_pos h1]
    exact shk_garmyder_core s
  rw [if_neg h1]
  by_cases h2 : card.id = "zazdrisni_susidy"
  · rw [if_pos h2]
    exact shk_zazdrisni_core env s resps
  rw [if_neg h2]
  by_cases h3 : card.id = "kuhar_rozbazikav"
  · rw [if_pos h3]
    exact ⟨rfl, rfl, rfl, rfl⟩
  rw [if_neg h3]
  by_cases h4 : card.id = "mityng_zahysnykiv"
  · rw [if_pos h4]
    exact shk_mityng_loop_core env _ s resps
  rw [if_neg h4]
  by_cases h5 : card.id = "yarmarok"
  · rw [if_pos h5]
    exact shk_yarmarok_core env s resps
  rw [if_neg h5]
  by_cases h6 : card.id = "vtratyv_niuh"
  · rw [if_pos h6]
    exact shk_vtratyv_loop_core env _ s resps
  rw [if_neg h6]
  by_cases h7 : card.id = "den_vrozhaiu"
  · rw [if_pos h7]
    exact shk_den_loop_core env _ _ s resps
  rw [if_neg h7]
  by_cases h8 : card.id = "zgorila_zasmazhka"
  · rw [if_pos h8]
    exact shk_zgorila_core s
  rw [if_neg h8]
  by_cases h9 : card.id = "zagubyly_spysok"
  · rw [if_pos h9]
    exact shk_zagubyly_loop_core env _ _ s resps
  rw [if_neg h9]
  by_cases h10 : card.id = "rozsypaly_specii"
  · rw [if_pos h10]
    exact shk_rozsypaly_loop_core env _ s resps
  rw [if_neg h10]
  by_cases h11 : card.id = "postachalnyk_pereplutav"
  · rw [if_pos h11]
    exact shk_postachalnyk_loop_core env _ s
  rw [if_neg h11]
  by_cases h12 : card.id = "defolt_crisa"
  · rw [if_pos h12]
    exact ⟨rfl, rfl, rfl, rfl⟩
  rw [if_neg h12]
  by_cases h13 : card.id = "sanepidemstancia"
  · rw [if_pos h13]
    exact shk_sanepid_core env s resps
  rw [if_neg h13]
  by_cases h14 : card.id = "kayenskyi_perec"
  · rw [if_pos h14]
    exact ⟨rfl, rfl, rfl, rfl⟩
  rw [if_neg h14]
  by_cases h15 : card.id = "porvalas_torbynka"
  · rw [if_pos h15]
    unfold shk_porvalas
    exact core_eq_trans (⟨rfl, rfl, rfl, rfl⟩ : core_eq s _)
      (shk_porvalas_loop_core env s.players _ resps)
  rw [if_neg h15]
  by_cases h16 : card.id = "peresolyly"
  · rw [if_pos h16]
    exact ⟨rfl, rfl, rfl, rfl⟩
  rw [if_neg h16]
  by_cases h17 : card.id = "molochka_skysla"
  · rw [if_pos h17]
    exact ⟨rfl, rfl, rfl, rfl⟩
  rw [if_neg h17]
  exact core_eq_refl s

theorem handle_shkvarka_core (env : Env) (s : GState) (card : Card)
    (resps : List PlayerResponse) :
    core_eq s (handle_shkvarka env s card resps).1 := by
  unfold handle_shkvarka
  dsimp only
  split
  · exact ⟨(shkvarka_dispatch_core env card _ resps).1,
      (shkvarka_dispatch_core env card _ resps).2.1,
      (shkvarka_dispatch_core env card _ resps).2.2.1,
      (shkvarka_dispatch_core env card _ resps).2.2.2⟩
  · exact ⟨(shkvarka_dispatch_core env card _ resps).1,
      (shkvarka_dispatch_core env card _ resps).2.1,
      (shkvarka_dispatch_core env card _ resps).2.2.1,
      (shkvarka_dispatch_core env card _ resps).2.2.2⟩

theorem process_shkvarkas_loop_core (env : Env) :
    ∀ (fuel i : Nat) (s : GState) (resps : List PlayerResponse),
    core_eq s (process_shkvarkas_loop env fuel i s resps).1 := by
  intro fuel
  induction fuel with
  | zero => intro i s resps; exact core_eq_refl s
  | succ n ih =>
    intro i s resps
    unfold process_shkvarkas_loop
    split
    · exact core_eq_refl s
    · exact core_eq_trans (handle_shkvarka_core env s _ resps) (ih _ _ _)

theorem process_shkvarkas_core (env : Env) (s : GState) (resps : List PlayerResponse) :
    core_eq s (process_shkvarkas env s resps).1 := by
  unfold process_shkvarkas
  dsimp only
  exact core_eq_trans (process_shkvarkas_loop_core env _ 0 s resps) ⟨rfl, rfl, rfl, rfl⟩

theorem succ_mod_ne (i n : Nat) (h1 : i < n) (h2 : 2 ≤ n) : (i + 1) % n ≠ i := by
  rcases Nat.lt_or_ge (i + 1) n with h | h
  · rw [Nat.mod_eq_of_lt h]; omega
  · have hn : i + 1 = n := by omega
    rw [hn, Nat.mod_self]; omega

theorem dispatch_core (env : Env) (s0 : GState) (pid : Nat) (m : MoveData) (action : String)
    (resps : List PlayerResponse) : core_eq s0 (dispatch_move env s0 pid m action resps).2.1 := by
  unfold dispatch_move
  dsimp only
  repeat' split
  all_goals
    first
    | exact core_eq_refl s0
    | exact add_ingredient_core s0 pid m.card_id
    | exact draw_cards_core env s0 pid
    | exact special_core env s0 pid m resps
    | exact handle_exchange_core env s0 pid m.hand_cards m.market_cards resps
    | exact free_refresh_core env s0

set_option maxHeartbeats 1000000 in
theorem finish_move_ff (env : Env) (s1 : GState) (pid : Nat) (success : Bool) (err : Option String)
    (resps : List PlayerResponse) (f : Nat)
    (hf : s1.first_finisher = some f) (hgo : s1.is_game_over = false)
    (hidx : s1.current_player_index < s1.players.length) (hn : 2 ≤ s1.players.length) :
    (finish_move env s1 pid success err resps).2.1.first_finisher = some f ∧
    ((finish_move env s1 pid success err resps).2.1.is_game_over = true ↔
      ((finish_move env s1 pid success err resps).1.1 = true ∧
       (finish_move env s1 pid success err resps).2.1.current_player_index ≠ s1.current_player_index ∧
       current_player_id (finish_move env s1 pid success err resps).2.1 = f)) := by
  unfold finish_move
  dsimp only
  have hc1 : core_eq s1 (handle_hand_limit env s1 pid resps).2.1 := hand_limit_core env s1 pid resps
  generalize hhl : handle_hand_limit env s1 pid resps = hl
  rw [hhl] at hc1
  have hc2 : core_eq s1 (if hl.1.1 then set_hand hl.2.1 pid hl.1.2 else hl.2.1) := by
    split
    · exact core_eq_trans hc1 ⟨rfl, rfl, rfl, rfl⟩
    · exact hc1
  generalize hs2 : (if hl.1.1 then set_hand hl.2.1 pid hl.1.2 else hl.2.1) = s2
  rw [hs2] at hc2
  have hc3 : core_eq s1 (process_shkvarkas env s2 hl.2.2).1 :=
    core_eq_trans hc2 (process_shkvarkas_core env s2 hl.2.2)
  generalize hps : process_shkvarkas env s2 hl.2.2 = ps
  rw [hps] at hc3
  have hff3 : ps.1.first_finisher = some f := hc3.2.2.2.trans hf
  have hgo3 : ps.1.is_game_over = false := hc3.2.2.1.trans hgo
  have hix3 : ps.1.current_player_index = s1.current_player_index := hc3.2.1
  have hpl3 : ps.1.players = s1.players := hc3.1
  have hnc : ¬(check_recipe_completion ps.1 pid = true ∧ ps.1.first_finisher = none) := by
    intro h
    rw [hff3] at h
    exact Option.noConfusion h.2
  rw [if_neg hnc]
  cases success with
  | false =>
    have hns : ¬((false : Bool) = true ∧ ¬(ps.1.is_game_over = true)) :=
      fun h => Bool.noConfusion h.1
    rw [if_neg hns]
    refine ⟨hff3, ?_⟩
    rw [hgo3, hix3]
    simp
  | true =>
    have hyes : ((true : Bool) = true ∧ ¬(ps.1.is_game_over = true)) :=
      ⟨rfl, fun h => by rw [hgo3] at h; exact Bool.noConfusion h⟩
    rw [if_pos hyes]
    unfold check_game_over
    dsimp only [next_player, push_msg, current_player_id]
    rw [hgo3, hff3]
    have hgof : ¬((false : Bool) = true) := fun h => Bool.noConfusion h
    rw [if_neg hgof]
    dsimp only
    split
    · unfold determine_winner
      dsimp only
      refine ⟨rfl, ?_⟩
      constructor
      · intro _
        refine ⟨rfl, ?_, ?_⟩
        · show (ps.1.current_player_index + 1) % ps.1.players.length ≠ s1.current_player_index
          rw [hix3, hpl3]
          exact succ_mod_ne s1.current_player_index s1.players.length hidx hn
        · assumption
      · intro _
        rfl
    · refine ⟨rfl, ?_⟩
      constructor
      · intro h
        exact absurd h (fun h => Bool.noConfusion h)
      · intro h
        exact absurd h.2.2 (by assumption)

theorem csr_all (env : Env) (resps : List PlayerResponse) (s : GState) (cards : List Card)
    (k : Int) (hk : 0 < k) (hn : (cards.length : Int) ≤ k) :
    (cards_selection_request env s cards k resps).1.2.2 = cards := by
  cases resps with
  | nil =>
    unfold cards_selection_request
    by_cases h0 : cards.length = 0
    · rw [if_pos (Or.inr (by omega))]
      exact (List.length_eq_zero.mp h0).symm
    · rw [if_neg (by omega), if_pos hn]
  | cons r rest =>
    unfold cards_selection_request
    by_cases h0 : cards.length = 0
    · rw [if_pos (Or.inr (by omega))]
      exact (List.length_eq_zero.mp h0).symm
    · rw [if_neg (by omega), if_pos hn]

theorem env0_sample_valid : sample_valid env0 := by
  intro n k hk hn
  refine ⟨List.length_range k, List.nodup_range k, fun i hi => ?_⟩
  have : i < k := List.mem_range.mp hi
  omega

/-! ### Claim theorems -/

/-- C1 (card conservation) fails: `_handle_olive_oil` writes back
`cards_to_return + self.deck[look_count:]`, slicing the deck that
`_get_cards_from_deck` has already popped.  On a six-card deck the move
destroys one card: the total of deck, market, discard and all hands and
borshts drops from 6 to 5, and the popped sixth card (uid 6) is in no
container afterwards. -/
theorem c1_olive_oil_destroys_cards :
    total_cards c1s = 6 ∧
    (handle_olive_oil env0 c1s 1 []).1.1 = true ∧
    total_cards (handle_olive_oil env0 c1s 1 []).2.1 = 5 ∧
    ((handle_olive_oil env0 c1s 1 []).2.1.deck.map Card.uid = [3, 4, 5] ∧
      (hand_of (handle_olive_oil env0 c1s 1 []).2.1 1).map Card.uid = [2, 1]) :=
  ⟨rfl, rfl, rfl, rfl, rfl⟩

/-- C2 is refuted as stated: a move rejected at dispatch with an
unknown action (`Invalid action type`) is a validation rejection, yet
`_process_move` has already incremented the acting player's move
counter, so the state is not snapshot-equal before and after. -/
theorem c2_counterexample :
    (process_move env0 c2s 1 { action := some "bogus" } []).1.1 = false ∧
    (process_move env0 c2s 1 { action := some "bogus" } []).1.2.1 = some "Invalid action type" ∧
    (process_move env0 c2s 1 { action := some "bogus" } []).2.1.moves_count = [(1, 1), (2, 0)] ∧
    c2s.moves_count = [(1, 0), (2, 0)] ∧
    (process_move env0 c2s 1 { action := some "bogus" } []).2.1 ≠ c2s :=
  ⟨rfl, rfl, rfl, rfl, by decide⟩

/-- C4 is refuted as stated: with players `[1, 2]` tied on score,
player 1's hand strictly costlier (10 against 1) and player 2 the
first finisher, `_determine_winner` hands the win to player 2 — the
first-finisher branch of the `elif` chain fires whenever the
challenger's hand cost is not strictly greater, not only on equal hand
costs, so the higher-hand-cost player does not always win. -/
theorem c4_counterexample :
    player_score c4s 1 = player_score c4s 2 ∧
    hand_cost c4s 1 = 10 ∧ hand_cost c4s 2 = 1 ∧
    (determine_winner c4s).1 = some 2 :=
  ⟨rfl, rfl, rfl, rfl⟩

/-- C5 (round-trip persistence) fails: `BorshtManager.load` calls
`super(BorshtManager, cls).load(...)` but discards the instance that
call restores, so the returned session keeps the constructor defaults
for the base attributes.  Dumping a session whose turn index is 1 and
whose message log is non-empty and loading it back yields turn index 0
and an empty log. -/
theorem c5_load_drops_base_state :
    c5s.current_player_index = 1 ∧
    (borsht_load [1, 2] (borsht_dump c5s)).current_player_index = 0 ∧
    c5s.game_messages = ["new_turn"] ∧
    (borsht_load [1, 2] (borsht_dump c5s)).game_messages = [] ∧
    borsht_load [1, 2] (borsht_dump c5s) ≠ c5s :=
  ⟨rfl, rfl, rfl, rfl, by decide⟩

/-- C6 is refuted as stated: the discard-to-hand-limit sub-flow does
not restore the prior turn state.  From a `NORMAL_TURN` with nine cards
in hand, `_handle_hand_limit` resolves (here through the random
fallback) and leaves `turn_state = WAITING_FOR_DISCARD`. -/
theorem c6_counterexample :
    c6s.turn_state = GameState.normal_turn ∧
    (handle_hand_limit env0 c6s 1 []).1.1 = true ∧
    (handle_hand_limit env0 c6s 1 []).2.1.turn_state = GameState.waiting_for_discard :=
  ⟨rfl, rfl, rfl⟩

/-- C7 is refuted as stated: a structurally invalid response (unknown
card reference 99) does not trigger the uniform-random fallback —
`_cards_selection_request` re-issues the request instead.  With
`sample` choosing index 0 (card uid 31), the random fallback would
select uid 31, but the resolution is uid 32, taken from the second,
player-chosen response after the invalid one. -/
theorem c7_counterexample :
    (cards_selection_request env0 base2 c7cards 1
        [PlayerResponse.select false [99], PlayerResponse.select false [32]]).1.2.2 = [c7b] ∧
    (pop_indices c7cards (sort_desc (env0.sample 3 1))).2 = [c7a] ∧
    c7b ≠ c7a :=
  ⟨rfl, rfl, by decide⟩

/-- C8 is refuted as stated: with player 3 recorded as first finisher
and holding an onion in their borsht, player 1's draw pulls the
`zgorila_zasmazhka` shkvarka, whose handler sweeps every player —
including the first finisher — and removes the onion from player 3's
borsht (it ends in the discard pile), while the game is not over. -/
theorem c8_counterexample :
    c8s.first_finisher = some 3 ∧
    borsht_of c8s 3 = [onion_card] ∧
    (process_move env0 c8s 1 { action := some "draw_cards" } []).1.1 = true ∧
    borsht_of (process_move env0 c8s 1 { action := some "draw_cards" } []).2.1 3 = [] ∧
    (process_move env0 c8s 1 { action := some "draw_cards" } []).2.1.discard_pile
      = [onion_card] ∧
    (process_move env0 c8s 1 { action := some "draw_cards" } []).2.1.is_game_over = false :=
  ⟨rfl, rfl, rfl, rfl, rfl, rfl⟩

/-- C9 is refuted as stated: offering the same hand card twice
(`hand_cards = [41, 41]`) against market card 43 passes validation
(the card's cost is counted once per occurrence: 3 + 3 ≥ 4), and the
"swap" then pops index 0 of the hand twice, removing the un-offered
card uid 42 from the game's hand and placing two copies of uid 41 in
the market — not an atomic swap of the offered and requested sets. -/
theorem c9_counterexample :
    (exchange_core c9s 1 [41, 41] [43]).1.1 = true ∧
    hand_of c9s 1 = [c9a, c9b] ∧
    hand_of (exchange_core c9s 1 [41, 41] [43]).2 1 = [c9m] ∧
    (exchange_core c9s 1 [41, 41] [43]).2.market = [c9a, c9a] :=
  ⟨rfl, rfl, rfl, rfl⟩

/-- C10: constructing a `BorshtManager` succeeds exactly for rosters of
2 to 5 players; outside that range `__init__` raises `ValueError` and
no session is produced. -/
theorem c10_player_count (roster : List Nat) (settings : Settings) :
    (borsht_init roster settings).isOk = true ↔
      2 ≤ roster.length ∧ roster.length ≤ 5 := by
  unfold borsht_init
  split
  · rename_i h
    simp [Except.isOk, Except.toBool]
    omega
  · rename_i h
    simp [Except.isOk, Except.toBool]
    omega

/-- C2 amended: zero state mutation holds for every rejection decided
before dispatch — out of turn, session already over, move targeting the
first finisher, or missing action: `_process_move` fails the move and
returns the session unchanged.  (As stated the claim is refuted by
`c2_counterexample`: an unknown or state-illegal action is also a
validation rejection, but it is reached only after the mover's move
counter was incremented.) -/
theorem c2_pre_dispatch_rejections_unchanged (env : Env) (s : GState) (pid : Nat) (m : MoveData)
    (resps : List PlayerResponse)
    (h : pid ≠ current_player_id s ∨ s.is_game_over = true ∨
      (∃ f, s.first_finisher = some f ∧ m.target_player = some f) ∨ m.action = none) :
    (process_move env s pid m resps).1.1 = false ∧
    (process_move env s pid m resps).2.1 = s := by
  unfold process_move
  by_cases h1 : pid ≠ current_player_id s
  · rw [if_pos h1]; exact ⟨rfl, rfl⟩
  · rw [if_neg h1]
    by_cases h2 : s.is_game_over = true
    · rw [if_pos h2]; exact ⟨rfl, rfl⟩
    · rw [if_neg h2]
      by_cases h3 : (match s.first_finisher with
          | some f => decide (m.target_player = some f)
          | none => false) = true
      · rw [if_pos h3]; exact ⟨rfl, rfl⟩
      · rw [if_neg h3]
        have h4 : m.action = none := by
          rcases h with h | h | h | h
          · exact absurd h h1
          · exact absurd h h2
          · obtain ⟨f, hf1, hf2⟩ := h
            rw [hf1] at h3
            simp [hf2] at h3
          · exact h
        rw [h4]
        exact ⟨rfl, rfl⟩

/-- C2 witness: an out-of-turn move against the blank session. -/
theorem c2_pre_dispatch_witness :
    (2 ≠ current_player_id c2s ∨ c2s.is_game_over = true ∨
      (∃ f, c2s.first_finisher = some f ∧ ({} : MoveData).target_player = some f) ∨
      ({} : MoveData).action = none) ∧
    (process_move env0 c2s 2 {} []).1.1 = false ∧
    (process_move env0 c2s 2 {} []).2.1 = c2s :=
  ⟨Or.inl (by decide),
   c2_pre_dispatch_rejections_unchanged env0 c2s 2 {} [] (Or.inl (by decide))⟩

set_option maxHeartbeats 1000000 in
/-- C3: once `first_finisher = some f` is recorded and the game is not
over, `_process_move` always preserves the first finisher, and the
resulting session has `is_game_over = true` exactly when the move
succeeded, the turn index actually advanced, and the player now holding
the turn is `f` — so moves by the other players are processed without
ending the game, and the successful move that brings the turn back to
the first finisher ends it. -/
theorem c3_game_over_on_return_to_first_finisher (env : Env) (s : GState) (pid : Nat)
    (m : MoveData) (resps : List PlayerResponse) (f : Nat)
    (hf : s.first_finisher = some f) (hgo : s.is_game_over = false)
    (hidx : s.current_player_index < s.players.length) (hn : 2 ≤ s.players.length) :
    (process_move env s pid m resps).2.1.first_finisher = some f ∧
    ((process_move env s pid m resps).2.1.is_game_over = true ↔
      ((process_move env s pid m resps).1.1 = true ∧
       (process_move env s pid m resps).2.1.current_player_index ≠ s.current_player_index ∧
       current_player_id (process_move env s pid m resps).2.1 = f)) := by
  unfold process_move
  by_cases h1 : pid ≠ current_player_id s
  · rw [if_pos h1]
    refine ⟨hf, ?_⟩
    rw [hgo]
    simp
  rw [if_neg h1]
  have h2 : ¬(s.is_game_over = true) := fun h => by rw [hgo] at h; exact Bool.noConfusion h
  rw [if_neg h2]
  by_cases h3 : (match s.first_finisher with
      | some f => decide (m.target_player = some f)
      | none => false) = true
  · rw [if_pos h3]
    refine ⟨hf, ?_⟩
    rw [hgo]
    simp
  rw [if_neg h3]
  cases hma : m.action with
  | none =>
    dsimp only
    refine ⟨hf, ?_⟩
    rw [hgo]
    simp
  | some action =>
    dsimp only
    have hcd : core_eq s (dispatch_move env { s with moves_count := setKey s.moves_count pid (moves_of s pid + 1) } pid m action resps).2.1 :=
      core_eq_trans ⟨rfl, rfl, rfl, rfl⟩ (dispatch_core env _ pid m action resps)
    generalize hdr : dispatch_move env { s with moves_count := setKey s.moves_count pid (moves_of s pid + 1) } pid m action resps = dr
    rw [hdr] at hcd
    split
    · have hc : core_eq s (process_shkvarkas env dr.2.1 dr.2.2).1 :=
        core_eq_trans hcd (process_shkvarkas_core env dr.2.1 dr.2.2)
      dsimp only
      refine ⟨hc.2.2.2.trans hf, ?_⟩
      rw [hc.2.2.1, hgo, hc.2.1]
      simp
    · have hres := finish_move_ff env dr.2.1 pid dr.1.1 dr.1.2.1 dr.2.2 f
        (hcd.2.2.2.trans hf) (hcd.2.2.1.trans hgo)
        (by rw [hcd.2.1, hcd.1]; exact hidx) (by rw [hcd.1]; exact hn)
      rw [hcd.2.1] at hres
      exact hres

/-- C3 witness: a draw by player 1 in a session where player 1 is the
first finisher; the turn passes to player 2 and the game does not end. -/
theorem c3_first_finisher_witness :
    c3s.first_finisher = some 1 ∧ c3s.is_game_over = false ∧
    c3s.current_player_index < c3s.players.length ∧ 2 ≤ c3s.players.length ∧
    ((process_move env0 c3s 1 { action := some "draw_cards" } []).2.1.first_finisher = some 1 ∧
     ((process_move env0 c3s 1 { action := some "draw_cards" } []).2.1.is_game_over = true ↔
       ((process_move env0 c3s 1 { action := some "draw_cards" } []).1.1 = true ∧
        (process_move env0 c3s 1 { action := some "draw_cards" } []).2.1.current_player_index ≠ c3s.current_player_index ∧
        current_player_id (process_move env0 c3s 1 { action := some "draw_cards" } []).2.1 = 1))) :=
  ⟨rfl, rfl, by decide, by decide,
   c3_game_over_on_return_to_first_finisher env0 c3s 1 { action := some "draw_cards" } [] 1
     rfl rfl (by decide) (by decide)⟩

/-- C4 amended: for a two-player roster tied on score,
`_determine_winner` resolves the tie by the source's `elif` chain with
the second player as challenger: the challenger wins on strictly higher
hand cost, otherwise on being the first finisher, otherwise on strictly
fewer moves when neither player is the first finisher; the first player
wins otherwise.  First-finisher status therefore fires whenever the
challenger's hand cost is not strictly greater — not only when hand
costs are equal — refuting the spec's strict order
(`c4_counterexample`). -/
theorem c4_tie_break_elif_order (s : GState) (x y : Nat)
    (hp : s.players = [x, y])
    (hsc : player_score s x = player_score s y)
    (hpos : -1 < player_score s x) :
    (determine_winner s).1 =
      if hand_cost s y > hand_cost s x then some y
      else if some y = s.first_finisher then some y
      else if (s.first_finisher ≠ some y ∧ s.first_finisher ≠ some x) ∧
          moves_of s y < moves_of s x then some y
      else some x := by
  unfold determine_winner
  rw [hp]
  dsimp only
  unfold winner_fold
  rw [if_pos (by omega : player_score s x > (-1 : Int))]
  unfold winner_fold
  rw [if_neg (by omega : ¬ player_score s y > player_score s x),
    if_pos (by omega : player_score s y = player_score s x)]
  dsimp only
  split
  · rfl
  · split
    · rfl
    · split
      · rfl
      · rfl

/-- C4 witness: the tie of `c4s` resolved by the amended order — the
first-finisher branch fires although player 1's hand is costlier. -/
theorem c4_tie_break_witness :
    c4s.players = [1, 2] ∧ player_score c4s 1 = player_score c4s 2 ∧
    (-1 : Int) < player_score c4s 1 ∧
    (determine_winner c4s).1 =
      (if hand_cost c4s 2 > hand_cost c4s 1 then some 2
       else if some 2 = c4s.first_finisher then some 2
       else if (c4s.first_finisher ≠ some 2 ∧ c4s.first_finisher ≠ some 1) ∧
           moves_of c4s 2 < moves_of c4s 1 then some 2
       else some 1) :=
  ⟨rfl, by decide, by decide, c4_tie_break_elif_order c4s 1 2 rfl (by decide) (by decide)⟩

/-- C6 amended: the card-selection request, the sour-cream defense
check and the shkvarka wrapper restore `turn_state` to its prior value
on every resolution path (player response, timeout fallback, and
invalid-selection retry).  The discard-to-hand-limit step does not
restore it (`c6_counterexample`): `_handle_hand_limit` leaves
`WAITING_FOR_DISCARD` behind. -/
theorem c6_subflows_restore_turn_state :
    (∀ (env : Env) (resps : List PlayerResponse) (s : GState) (cards : List Card) (k : Int),
      (cards_selection_request env s cards k resps).2.1.turn_state = s.turn_state) ∧
    (∀ (env : Env) (s : GState) (target : Nat) (resps : List PlayerResponse),
      (check_sour_cream_defense env s target resps).2.1.turn_state = s.turn_state) ∧
    (∀ (env : Env) (s : GState) (card : Card) (resps : List PlayerResponse),
      (handle_shkvarka env s card resps).1.turn_state = s.turn_state) :=
  ⟨fun env resps s cards k => (csr_basic env resps s cards k).2.2,
   fun env s target resps => defense_turn_state env s target resps,
   fun env s card resps => shkvarka_wrapper_turn_state env s card resps⟩

/-- C7 amended: a card-selection request always resolves with success
and with remaining ++ selected a permutation of the offered cards; when
the sampler returns `k` distinct valid indices (`random.sample`), the
selection has exactly cardinality `k` for `0 < k < n`, and all `n`
cards are selected when `n ≤ k`.  (Uniformity of the random fallback is
a property of Python's `random.sample`, outside the embedded code; and
on a structurally invalid response the source retries the request
rather than falling back at once, as `c7_counterexample` shows, so the
random fallback is reached on timeout or on an exhausted retry
sequence.) -/
theorem c7_selection_always_resolves (env : Env) (hs : sample_valid env)
    (resps : List PlayerResponse) (s : GState) (cards : List Card) (k : Int) :
    (cards_selection_request env s cards k resps).1.1 = true ∧
    List.Perm ((cards_selection_request env s cards k resps).1.2.1 ++
      (cards_selection_request env s cards k resps).1.2.2) cards ∧
    (0 < k → k < (cards.length : Int) →
      ((cards_selection_request env s cards k resps).1.2.2).length = k.toNat) ∧
    (0 < k → (cards.length : Int) ≤ k →
      (cards_selection_request env s cards k resps).1.2.2 = cards) :=
  ⟨(csr_basic env resps s cards k).1, (csr_basic env resps s cards k).2.1,
   fun hk hn => csr_len env hs resps s cards k hk hn,
   fun hk hn => csr_all env resps s cards k hk hn⟩

/-- C7 witness: a one-card selection out of three offered, resolved by
the timeout fallback under the well-behaved sampler `env0`. -/
theorem c7_selection_witness :
    sample_valid env0 ∧
    ((cards_selection_request env0 base2 c7cards 1 []).1.1 = true ∧
     List.Perm ((cards_selection_request env0 base2 c7cards 1 []).1.2.1 ++
       (cards_selection_request env0 base2 c7cards 1 []).1.2.2) c7cards ∧
     (0 < (1 : Int) → (1 : Int) < (c7cards.length : Int) →
       ((cards_selection_request env0 base2 c7cards 1 []).1.2.2).length = (1 : Int).toNat) ∧
     (0 < (1 : Int) → (c7cards.length : Int) ≤ (1 : Int) →
       (cards_selection_request env0 base2 c7cards 1 []).1.2.2 = c7cards)) :=
  ⟨env0_sample_valid,
   c7_selection_always_resolves env0 env0_sample_valid [] base2 c7cards 1⟩

/-- C8 amended: once `first_finisher` is recorded, any move naming the
first finisher as `target_player` is rejected with no state change.
(The untargetable-by-shkvarkas half of the claim is refuted by
`c8_counterexample`: a drawn `zgorila_zasmazhka` event removes a card
from the first finisher's borsht.) -/
theorem c8_target_first_finisher_rejected (env : Env) (s : GState) (pid f : Nat) (m : MoveData)
    (resps : List PlayerResponse)
    (hf : s.first_finisher = some f) (hm : m.target_player = some f) :
    (process_move env s pid m resps).1.1 = false ∧
    (process_move env s pid m resps).2.1 = s := by
  unfold process_move
  by_cases h1 : pid ≠ current_player_id s
  · rw [if_pos h1]; exact ⟨rfl, rfl⟩
  · rw [if_neg h1]
    by_cases h2 : s.is_game_over = true
    · rw [if_pos h2]; exact ⟨rfl, rfl⟩
    · rw [if_neg h2]
      have h3 : (match s.first_finisher with
          | some f => decide (m.target_player = some f)
          | none => false) = true := by
        rw [hf]
        simp [hm]
      rw [if_pos h3]
      exact ⟨rfl, rfl⟩

/-- C8 witness: player 1, the first finisher, targets themselves; the
move is rejected and the session is unchanged. -/
theorem c8_target_witness :
    c3s.first_finisher = some 1 ∧
    ({ target_player := some 1 } : MoveData).target_player = some 1 ∧
    ((process_move env0 c3s 1 { target_player := some 1 } []).1.1 = false ∧
     (process_move env0 c3s 1 { target_player := some 1 } []).2.1 = c3s) :=
  ⟨rfl, rfl,
   c8_target_first_finisher_rejected env0 c3s 1 1 { target_player := some 1 } [] rfl rfl⟩

/-- C9 amended: for duplicate-free uid lists submitted by a player in
the roster, the exchange succeeds exactly when the shape is 1-to-many
or many-to-1, every offered uid is in the hand, every requested uid is
in the market, and the offered cost covers the requested cost plus the
exchange tax; on failure hand and market are unchanged, and on success
the offered and requested card sets swap containers as a permutation.
(Without the duplicate-free hypothesis the claim is refuted by
`c9_counterexample`: a duplicated offered uid is validated twice
against the same card but pops two different cards.) -/
theorem c9_exchange_contract (s : GState) (pid : Nat) (hc mc : List Nat)
    (hnd1 : hc.Nodup) (hnd2 : mc.Nodup)
    (hpid : pid ∈ s.player_hands.map Prod.fst) :
    ((exchange_core s pid hc mc).1.1 = true ↔
      ((hc.length = 1 ∨ mc.length = 1) ∧
        (∀ u ∈ hc, u ∈ (hand_of s pid).map Card.uid) ∧
        (∀ u ∈ mc, u ∈ s.market.map Card.uid) ∧
        uid_cost s.market mc + s.settings.market_exchange_tax ≤ uid_cost (hand_of s pid) hc)) ∧
    ((exchange_core s pid hc mc).1.1 = false → (exchange_core s pid hc mc).2 = s) ∧
    ((exchange_core s pid hc mc).1.1 = true →
      ∃ offered requested : List Card,
        offered.map Card.uid = hc ∧ requested.map Card.uid = mc ∧
        List.Perm (hand_of (exchange_core s pid hc mc).2 pid ++ offered)
          (hand_of s pid ++ requested) ∧
        List.Perm ((exchange_core s pid hc mc).2.market ++ requested)
          (s.market ++ offered)) := by
  by_cases hshape : hc.length ≠ 1 ∧ mc.length ≠ 1
  · have he : exchange_core s pid hc mc =
        ((false, some "Exchange must be 1-to-many or many-to-1"), s) := by
      unfold exchange_core; rw [if_pos hshape]
    rw [he]
    refine ⟨?_, fun _ => rfl, fun h => absurd h (by simp)⟩
    apply iff_of_false (by simp)
    intro hcond
    rcases hcond.1 with h1 | h1
    · exact hshape.1 h1
    · exact hshape.2 h1
  · cases hch : collect_cards (hand_of s pid) hc with
    | none =>
      have he : exchange_core s pid hc mc = ((false, some "Card not in hand"), s) := by
        unfold exchange_core; rw [if_neg hshape, hch]
      rw [he]
      refine ⟨?_, fun _ => rfl, fun h => absurd h (by simp)⟩
      apply iff_of_false (by simp)
      intro hcond
      have hmemb := hcond.2.1
      have : (collect_cards (hand_of s pid) hc).isSome = true :=
        (collect_cards_isSome hc (hand_of s pid)).mpr hmemb
      rw [hch] at this
      exact absurd this (by simp)
    | some hobjs =>
      cases hcm : collect_cards s.market mc with
      | none =>
        have he : exchange_core s pid hc mc = ((false, some "Card not in market"), s) := by
          unfold exchange_core; rw [if_neg hshape, hch, hcm]
        rw [he]
        refine ⟨?_, fun _ => rfl, fun h => absurd h (by simp)⟩
        apply iff_of_false (by simp)
        intro hcond
        have hmemb := hcond.2.2.1
        have : (collect_cards s.market mc).isSome = true :=
          (collect_cards_isSome mc s.market).mpr hmemb
        rw [hcm] at this
        exact absurd this (by simp)
      | some mobjs =>
        obtain ⟨hlenh, hgeth, huidsh, hcosth⟩ :=
          collect_cards_spec hc (hand_of s pid) hobjs hch
        obtain ⟨hlenm, hgetm, huidsm, hcostm⟩ := collect_cards_spec mc s.market mobjs hcm
        by_cases hcost : (hobjs.map (fun p => p.2.cost)).sum <
            (mobjs.map (fun p => p.2.cost)).sum + s.settings.market_exchange_tax
        · have he : exchange_core s pid hc mc =
              ((false, some "Hand card value must cover the market cards total plus the tax"), s) := by
            unfold exchange_core; rw [if_neg hshape, hch, hcm]
            dsimp only
            rw [if_pos hcost]
          rw [he]
          refine ⟨?_, fun _ => rfl, fun h => absurd h (by simp)⟩
          apply iff_of_false (by simp)
          intro hcond
          have := hcond.2.2.2
          rw [← hcosth, ← hcostm] at this
          omega
        · have hsucc : (exchange_core s pid hc mc).1.1 = true := by
            unfold exchange_core; rw [if_neg hshape, hch, hcm]
            dsimp only
            rw [if_neg hcost]
          have hhand : hand_of (exchange_core s pid hc mc).2 pid =
              remove_indices (hand_of s pid) (sort_desc (hobjs.map Prod.fst))
                ++ mobjs.map Prod.snd := by
            unfold exchange_core
            rw [if_neg hshape, hch, hcm]
            dsimp only
            rw [if_neg hcost]
            dsimp only [push_msg, set_hand, hand_of]
            exact lookupD_setKey_mem _ _ _ hpid
          have hmarket : (exchange_core s pid hc mc).2.market =
              remove_indices s.market (sort_desc (mobjs.map Prod.fst))
                ++ hobjs.map Prod.snd := by
            unfold exchange_core
            rw [if_neg hshape, hch, hcm]
            dsimp only
            rw [if_neg hcost]
            rfl
          refine ⟨?_, ?_, ?_⟩
          · rw [hsucc]
            simp only [true_iff]
            refine ⟨by omega, ?_, ?_, by rw [← hcosth, ← hcostm]; omega⟩
            · exact fun u hu => (collect_cards_isSome hc (hand_of s pid)).mp
                (by rw [hch]; rfl) u hu
            · exact fun u hu => (collect_cards_isSome mc s.market).mp
                (by rw [hcm]; rfl) u hu
          · intro hfalse
            rw [hsucc] at hfalse
            exact absurd hfalse (by simp)
          · intro _
            refine ⟨hobjs.map Prod.snd, mobjs.map Prod.snd, ?_, ?_, ?_, ?_⟩
            · rw [List.map_map]
              exact huidsh
            · rw [List.map_map]
              exact huidsm
            · rw [hhand]
              have hrem := remove_collected_perm hc (hand_of s pid) hobjs hnd1 hch
              have step1 : List.Perm
                  (remove_indices (hand_of s pid) (sort_desc (hobjs.map Prod.fst))
                    ++ mobjs.map Prod.snd ++ hobjs.map Prod.snd)
                  (remove_indices (hand_of s pid) (sort_desc (hobjs.map Prod.fst))
                    ++ hobjs.map Prod.snd ++ mobjs.map Prod.snd) := by
                rw [List.append_assoc, List.append_assoc]
                exact List.Perm.append_left _ List.perm_append_comm
              exact step1.trans (hrem.append_right _)
            · rw [hmarket]
              have hrem := remove_collected_perm mc s.market mobjs hnd2 hcm
              have step1 : List.Perm
                  (remove_indices s.market (sort_desc (mobjs.map Prod.fst))
                    ++ hobjs.map Prod.snd ++ mobjs.map Prod.snd)
                  (remove_indices s.market (sort_desc (mobjs.map Prod.fst))
                    ++ mobjs.map Prod.snd ++ hobjs.map Prod.snd) := by
                rw [List.append_assoc, List.append_assoc]
                exact List.Perm.append_left _ List.perm_append_comm
              exact step1.trans (hrem.append_right _)

/-- C9 witness: the legal single-for-single exchange of `c9s`
instantiates the contract. -/
theorem c9_exchange_witness :
    ([41] : List Nat).Nodup ∧ ([43] : List Nat).Nodup ∧
    1 ∈ c9s.player_hands.map Prod.fst ∧
    (((exchange_core c9s 1 [41] [43]).1.1 = true ↔
      ((([41] : List Nat).length = 1 ∨ ([43] : List Nat).length = 1) ∧
        (∀ u ∈ ([41] : List Nat), u ∈ (hand_of c9s 1).map Card.uid) ∧
        (∀ u ∈ ([43] : List Nat), u ∈ c9s.market.map Card.uid) ∧
        uid_cost c9s.market [43] + c9s.settings.market_exchange_tax ≤
          uid_cost (hand_of c9s 1) [41])) ∧
     ((exchange_core c9s 1 [41] [43]).1.1 = false → (exchange_core c9s 1 [41] [43]).2 = c9s) ∧
     ((exchange_core c9s 1 [41] [43]).1.1 = true →
       ∃ offered requested : List Card,
         offered.map Card.uid = [41] ∧ requested.map Card.uid = [43] ∧
         List.Perm (hand_of (exchange_core c9s 1 [41] [43]).2 1 ++ offered)
           (hand_of c9s 1 ++ requested) ∧
         List.Perm ((exchange_core c9s 1 [41] [43]).2.market ++ requested)
           (c9s.market ++ offered))) :=
  ⟨by decide, by decide, by decide,
   c9_exchange_contract c9s 1 [41] [43] (by decide) (by decide) (by decide)⟩
